import Mathlib

/-!
Verification development for the two serverless LLM endpoints ("triage" and
"generatePlan") of the ai-powered-demo-app repository.  The two handlers are
embedded as pure Lean functions: the JavaScript runtime collaborators
(`JSON.parse`, base64 decoding, the OpenAI completion client) are passed in
explicitly as oracles, and the single effectful provider call is recorded in a
`providerCalled` flag.  JSON numbers are modelled as integers (no claim depends
on fractional values) and strings as sequences of Unicode scalar values.
-/

namespace App

/-- JSON values, as produced by `JSON.parse`. -/
inductive Json where
  | null : Json
  | bool : Bool → Json
  | num : Int → Json
  | str : String → Json
  | arr : List Json → Json
  | obj : List (String × Json) → Json

/-- Decidable equality of a base type, looked up by instance (used inside the
mutual block below, where `decEq` would resolve to `Json.decEq`). -/
def baseDecEq {α : Type} [DecidableEq α] (a b : α) : Decidable (a = b) :=
  inferInstance

mutual

/-- Structural decidable equality for `Json` (the `deriving` handler does not
support this nested inductive). -/
def Json.decEq : (a b : Json) → Decidable (a = b)
  | .null, .null => isTrue rfl
  | .bool a, .bool b =>
    match baseDecEq a b with
    | isTrue h => isTrue (h ▸ rfl)
    | isFalse h => isFalse (fun hh => h (Json.bool.inj hh))
  | .num a, .num b =>
    match baseDecEq a b with
    | isTrue h => isTrue (h ▸ rfl)
    | isFalse h => isFalse (fun hh => h (Json.num.inj hh))
  | .str a, .str b =>
    match baseDecEq a b with
    | isTrue h => isTrue (h ▸ rfl)
    | isFalse h => isFalse (fun hh => h (Json.str.inj hh))
  | .arr a, .arr b =>
    match Json.decEqList a b with
    | isTrue h => isTrue (h ▸ rfl)
    | isFalse h => isFalse (fun hh => h (Json.arr.inj hh))
  | .obj a, .obj b =>
    match Json.decEqFields a b with
    | isTrue h => isTrue (h ▸ rfl)
    | isFalse h => isFalse (fun hh => h (Json.obj.inj hh))
  | .null, .bool _ | .null, .num _ | .null, .str _ | .null, .arr _ | .null, .obj _
  | .bool _, .null | .bool _, .num _ | .bool _, .str _ | .bool _, .arr _ | .bool _, .obj _
  | .num _, .null | .num _, .bool _ | .num _, .str _ | .num _, .arr _ | .num _, .obj _
  | .str _, .null | .str _, .bool _ | .str _, .num _ | .str _, .arr _ | .str _, .obj _
  | .arr _, .null | .arr _, .bool _ | .arr _, .num _ | .arr _, .str _ | .arr _, .obj _
  | .obj _, .null | .obj _, .bool _ | .obj _, .num _ | .obj _, .str _ | .obj _, .arr _ =>
    isFalse (by intro h; exact Json.noConfusion h)

def Json.decEqList : (a b : List Json) → Decidable (a = b)
  | [], [] => isTrue rfl
  | [], _ :: _ => isFalse (by intro h; exact List.noConfusion h)
  | _ :: _, [] => isFalse (by intro h; exact List.noConfusion h)
  | x :: xs, y :: ys =>
    match Json.decEq x y with
    | isTrue h1 =>
      match Json.decEqList xs ys with
      | isTrue h2 => isTrue (by rw [h1, h2])
      | isFalse h2 => isFalse (by intro h; injection h; contradiction)
    | isFalse h1 => isFalse (by intro h; injection h; contradiction)

def Json.decEqFields : (a b : List (String × Json)) → Decidable (a = b)
  | [], [] => isTrue rfl
  | [], _ :: _ => isFalse (by intro h; exact List.noConfusion h)
  | _ :: _, [] => isFalse (by intro h; exact List.noConfusion h)
  | (k, x) :: xs, (k', y) :: ys =>
    match baseDecEq k k' with
    | isTrue hk =>
      match Json.decEq x y with
      | isTrue h1 =>
        match Json.decEqFields xs ys with
        | isTrue h2 => isTrue (by rw [hk, h1, h2])
        | isFalse h2 => isFalse (by intro h; injection h; contradiction)
      | isFalse h1 =>
        isFalse (by
          intro h; injection h with h3 h4
          exact h1 (congrArg Prod.snd h3) |>.elim)
    | isFalse hk =>
      isFalse (by
        intro h; injection h with h3 h4
        exact hk (congrArg Prod.fst h3) |>.elim)

end

instance : DecidableEq Json := Json.decEq

/-- First binding of `key` in an association list (JS object property lookup;
`JSON.parse` never produces duplicate keys). -/
def lookupField : List (String × Json) → String → Option Json
  | [], _ => none
  | (k, x) :: rest, key => if k = key then some x else lookupField rest key

/-- JS property access `v[key]`: `undefined` (here `none`) on non-objects. -/
def jsonLookup (v : Json) (key : String) : Option Json :=
  match v with
  | .obj fields => lookupField fields key
  | _ => none

/-- JS falsiness of a parsed JSON value (`null`, `false`, `0`, `""`). -/
def jsFalsy : Json → Bool
  | .null => true
  | .bool b => !b
  | .num n => n == 0
  | .str s => s == ""
  | _ => false

/-! ### Character classes used by the two `next_steps` regexes -/

def isUpperAZ (c : Char) : Bool := 'A' ≤ c && c ≤ 'Z'

def isLowerAZ (c : Char) : Bool := 'a' ≤ c && c ≤ 'z'

def isAsciiLetter (c : Char) : Bool := isUpperAZ c || isLowerAZ c

def isDigitCh (c : Char) : Bool := '0' ≤ c && c ≤ '9'

/-- JS regex word character `\w` = `[A-Za-z0-9_]`. -/
def isWordCh (c : Char) : Bool := isAsciiLetter c || isDigitCh c || c == '_'

/-- JS regex line terminators, which `.` does not match. -/
def isLineTerm (c : Char) : Bool :=
  c == '\n' || c == '\r' || c == '\u2028' || c == '\u2029'

/-- JS regex `\s` (also the whitespace class trimmed by `String.prototype.trim`). -/
def isJsSpace (c : Char) : Bool :=
  c == '\t' || c == '\n' || c == '\x0b' || c == '\x0c' || c == '\r' || c == ' ' ||
  c == '\u00a0' || c == '\u1680' || ('\u2000' ≤ c && c ≤ '\u200a') ||
  c == '\u2028' || c == '\u2029' || c == '\u202f' || c == '\u205f' ||
  c == '\u3000' || c == '\ufeff'

/-- JS `String.prototype.trim` on the character list. -/
def jsTrimList (l : List Char) : List Char :=
  ((l.dropWhile isJsSpace).reverse.dropWhile isJsSpace).reverse

/-- Length after trimming, i.e. `s.trim().length` (code points). -/
def jsTrimLen (s : String) : Nat := (jsTrimList s.data).length

/-- UTF-8 byte width of one scalar value (`Buffer.byteLength(_, "utf8")`). -/
def charUtf8Len (c : Char) : Nat :=
  if c.val < 0x80 then 1 else if c.val < 0x800 then 2
  else if c.val < 0x10000 then 3 else 4

/-- `Buffer.byteLength(s, "utf8")`. -/
def utf8Len (s : String) : Nat := (s.data.map charUtf8Len).sum

/-- UTF-16 width of one scalar value. -/
def charUtf16Len (c : Char) : Nat := if c.val < 0x10000 then 1 else 2

/-- JS `s.length` (UTF-16 code units). -/
def jsLength (s : String) : Nat := (s.data.map charUtf16Len).sum

/-- `s.slice(0, n)` (modelled on scalar values). -/
def strTake (n : Nat) (s : String) : String := String.mk (s.data.take n)

/-! ### The two `next_steps` regular expressions

Both regexes are anchored (`^...$`, no `m` flag), so `.test` succeeds exactly
when the whole-string match relation holds.  A backtracking regex match is the
existence of a decomposition of the string, which we encode with explicit
bounded existentials (`List.range ... |>.any`).  A `\b` directly after a
maximal literal/character-class run of word characters holds exactly when the
next character is absent or a non-word character. -/

/-- `\b` at the position right after a word character: the remainder must be
empty or start with a non-word character. -/
def boundaryAfter : List Char → Bool
  | [] => true
  | c :: _ => !isWordCh c

/-- `.*$` over the remainder: no line terminators. -/
def noLineTerm (l : List Char) : Bool := l.all (fun c => !isLineTerm c)

/-- `p` is a literal prefix of `l`. -/
def leadsWith : List Char → List Char → Bool
  | [], _ => true
  | _ :: _, [] => false
  | p :: ps, c :: cs => p == c && leadsWith ps cs

/-- The closed verb list of the triage `next_steps` regex (source order). -/
def actionVerbs : List String :=
  ["Gather", "Define", "Identify", "Review", "Assess", "Analyze", "Map",
   "Document", "Implement", "Automate", "Configure", "Create", "Set",
   "Establish", "Build", "Prototype", "Pilot", "Test", "Deploy", "Monitor",
   "Measure", "Train", "Communicate", "Schedule", "Prioritize", "Standardize",
   "Integrate", "Refine", "Update", "Validate", "Draft", "Run", "Enable",
   "Collect", "Clean", "Design", "Plan", "Decide", "Align"]

/-- The triage regex
`^(Gather|Define|...|Align)\b.*$`:
the string starts with one of the listed verbs, followed by a word boundary,
and the remainder contains no line terminator. -/
def triageNextStepsPattern (l : List Char) : Bool :=
  actionVerbs.any (fun v =>
    leadsWith v.data l && boundaryAfter (l.drop v.length) &&
      noLineTerm (l.drop v.length))

/-- `[A-Z][a-zA-Z]+\b.*$` matched against the whole list: an upper-case ASCII
letter, then (for some `k ≥ 1`) `k` ASCII letters, a word boundary, and a
line-terminator-free remainder. -/
def capWordCore : List Char → Bool
  | [] => false
  | c :: rest =>
    isUpperAZ c &&
      (List.range (rest.length + 1)).any (fun k =>
        decide (1 ≤ k) && (rest.take k).all isAsciiLetter &&
          boundaryAfter (rest.drop k) && noLineTerm (rest.drop k))

/-- `[\.\)\:\-]\s*` matched against the whole list. -/
def punctThenSpaces : List Char → Bool
  | [] => false
  | c :: rest =>
    (c == '.' || c == ')' || c == ':' || c == '-') && rest.all isJsSpace

/-- `\d+[\.\)\:\-]\s*` matched against the whole list. -/
def numberingAlt (l : List Char) : Bool :=
  (List.range (l.length + 1)).any (fun j =>
    decide (1 ≤ j) && (l.take j).all isDigitCh && punctThenSpaces (l.drop j))

/-- `[-•]\s*` matched against the whole list. -/
def bulletAlt : List Char → Bool
  | [] => false
  | c :: rest => (c == '-' || c == '•') && rest.all isJsSpace

/-- The optional-prefix group `\s*(?:\d+[\.\)\:\-]\s*|[-•]\s*)` matched against
the whole list. -/
def numberingOrBullet (l : List Char) : Bool :=
  (List.range (l.length + 1)).any (fun i =>
    (l.take i).all isJsSpace &&
      (numberingAlt (l.drop i) || bulletAlt (l.drop i)))

/-- The generatePlan regex
`^(?:\s*(?:\d+[\.\)\:\-]\s*|[-•]\s*))?[A-Z][a-zA-Z]+\b.*$`:
either the capitalized-word core matches the whole string, or some non-empty
prefix matches the numbering/bullet group and the core matches the rest. -/
def planNextStepsPattern (l : List Char) : Bool :=
  capWordCore l ||
    (List.range (l.length + 1)).any (fun i =>
      numberingOrBullet (l.take i) && capWordCore (l.drop i))

/-! ### The shared response-shape validator

`validateTriageShape` (triage endpoint) and `validatePlanShape` (generatePlan
endpoint) are textually identical in the source except for the `next_steps`
regex, so they are embedded as two instantiations of `validateShape`. -/

def allowedKeys : List String :=
  ["problem_statement", "clarifying_questions", "proposed_approach",
   "recommended_tools", "risks_and_privacy", "next_steps"]

/-- The first `for (const k of keys)` loop: first key not in the whitelist. -/
def firstUnexpected (keys : List String) : Option String :=
  keys.find? (fun k => !allowedKeys.contains k)

/-- The second loop: first whitelisted key missing from the object. -/
def firstMissing (keys : List String) : Option String :=
  allowedKeys.find? (fun a => !keys.contains a)

/-- The per-item loop of `checkArray`: first item that is not a string, is too
short after trimming, or fails the pattern. -/
def checkItems (field : String) (minLen : Nat) (pat : Option (List Char → Bool)) :
    List Json → Option String
  | [] => none
  | item :: rest =>
    match item with
    | .str s =>
      if jsTrimLen s < minLen then
        some (field ++ " items must be strings (minLength " ++ toString minLen ++ ").")
      else
        match pat with
        | some p =>
          if !(p s.data) then some (field ++ " items must match required pattern.")
          else checkItems field minLen pat rest
        | none => checkItems field minLen pat rest
    | _ => some (field ++ " items must be strings (minLength " ++ toString minLen ++ ").")

/-- The inner `checkArray(field, minItems, maxItems, minLen, pattern?)`. -/
def checkArray (v : Json) (field : String) (minItems maxItems minLen : Nat)
    (pat : Option (List Char → Bool)) : Option String :=
  match jsonLookup v field with
  | some (.arr items) =>
    if items.length < minItems || maxItems < items.length then
      some (field ++ " must have " ++ toString minItems ++ "-" ++
        toString maxItems ++ " items.")
    else checkItems field minLen pat items
  | _ => some (field ++ " must be an array.")

/-- JS `a || b` on `string | null` results (the empty string is falsy; no
emitted message is empty, but the embedding keeps the exact semantics). -/
def jsOr (a b : Option String) : Option String :=
  match a with
  | some s => if s == "" then b else some s
  | none => b

/-- The common body of `validateTriageShape` / `validatePlanShape`,
parameterized by the `next_steps` regex. -/
def validateShape (nextPat : List Char → Bool) (v : Json) : Option String :=
  match v with
  | .obj fields =>
    match firstUnexpected (fields.map Prod.fst) with
    | some k => some ("Unexpected property: " ++ k)
    | none =>
      match firstMissing (fields.map Prod.fst) with
      | some k => some ("Missing required property: " ++ k)
      | none =>
        match jsonLookup (.obj fields) "problem_statement" with
        | some (.str s) =>
          if jsTrimLen s < 10 then
            some "problem_statement must be a string (minLength 10)."
          else
            jsOr (checkArray (.obj fields) "clarifying_questions" 3 5 5 none)
              (jsOr (checkArray (.obj fields) "proposed_approach" 4 7 5 none)
                (jsOr (checkArray (.obj fields) "recommended_tools" 1 10 2 none)
                  (jsOr (checkArray (.obj fields) "risks_and_privacy" 1 10 5 none)
                    (checkArray (.obj fields) "next_steps" 4 7 3
                      (some nextPat)))))
        | _ => some "problem_statement must be a string (minLength 10)."
  | _ => some "Response is not an object."

/-- `validateTriageShape` from the triage endpoint source. -/
def validateTriageShape (v : Json) : Option String :=
  validateShape triageNextStepsPattern v

/-- `validatePlanShape` from the generatePlan endpoint source. -/
def validatePlanShape (v : Json) : Option String :=
  validateShape planNextStepsPattern v

/-! ### Error classification of the provider client -/

/-- A thrown JS error value as inspected by `toHttpError` and the `catch`
block: the optional numeric `status` property, and the string that
`err?.message || String(err)` evaluates to. -/
structure ErrVal where
  status : Option Int
  msg : String
deriving DecidableEq

/-- The `{ statusCode, message }` pair produced by `toHttpError`. -/
structure HttpErr where
  statusCode : Nat
  message : String
deriving DecidableEq

/-- `toHttpError` (identical in both endpoint sources).  The `status &&`
truthiness test additionally requires a non-zero status, which is subsumed by
`500 ≤ status` but kept for fidelity. -/
def toHttpError (e : ErrVal) : HttpErr :=
  match e.status with
  | some n =>
    if n == 401 || n == 403 then ⟨502, "LLM authentication failed."⟩
    else if n == 429 then ⟨429, "Rate limited by LLM provider. Try again shortly."⟩
    else if !(n == 0) && decide (500 ≤ n) then
      ⟨502, "LLM provider error. Try again shortly."⟩
    else ⟨502, "LLM request failed."⟩
  | none => ⟨502, "LLM request failed."⟩

/-! ### Environment, event, platform oracles, responses -/

/-- The environment variables the handlers read. -/
structure Env where
  openaiApiKey : Option String
  openaiModel : Option String
  debugErrorsRaw : Option String
deriving DecidableEq

def asciiLower (c : Char) : Char :=
  if isUpperAZ c then Char.ofNat (c.toNat + 32) else c

def lowerStr (s : String) : String := String.mk (s.data.map asciiLower)

/-- `DEBUG_ERRORS`: `String(process.env.DEBUG_ERRORS || "").toLowerCase() ===
"true"` (only ASCII case matters for equality with `"true"`). -/
def debugErrors (env : Env) : Bool :=
  lowerStr (env.debugErrorsRaw.getD "") == "true"

/-- The inbound transport event. -/
structure Event where
  httpMethod : String
  headers : List (String × String)
  body : Option String
  isBase64Encoded : Bool
deriving DecidableEq

def headerLookup : List (String × String) → String → Option String
  | [], _ => none
  | (k, v) :: rest, key => if k = key then some v else headerLookup rest key

/-- JS `a || b` over `string | undefined` (empty strings are falsy and fall
through). -/
def jsOrStr (a b : Option String) : Option String :=
  match a with
  | some s => if s == "" then b else some s
  | none => b

/-- `getRequestId`: the first truthy of the four header lookups, else `null`.
The final `jsOrStr _ none` step mirrors the trailing `|| null`, which turns an
empty-string header value into `null`. -/
def getRequestId (ev : Event) : Option String :=
  jsOrStr (headerLookup ev.headers "x-nf-request-id")
    (jsOrStr (headerLookup ev.headers "X-Nf-Request-Id")
      (jsOrStr (headerLookup ev.headers "x-request-id")
        (jsOrStr (headerLookup ev.headers "X-Request-Id") none)))

/-- Oracles for the JS runtime builtins the handlers call: `JSON.parse`
(`none` models a thrown `SyntaxError`) and base64 decoding. -/
structure Platform where
  jsonParse : String → Option Json
  base64Decode : String → String

/-- Outcome of the single `await client.responses.create(...)` call followed
by reading `.output_text`: either the call throws, or it yields the
`output_text` value (`none` models a missing or non-string `output_text`). -/
inductive ProviderOutcome where
  | throws (e : ErrVal)
  | returns (outputText : Option String)
deriving DecidableEq

/-- An outbound response.  The source serializes `body` with
`JSON.stringify`; the embedding keeps the structured value (the `OPTIONS`
pre-flight response, whose body is the literal empty string, is represented
with body `.str ""`). -/
structure Response where
  statusCode : Nat
  headers : List (String × String)
  body : Json
deriving DecidableEq

def corsHeaders : List (String × String) :=
  [("content-type", "application/json; charset=utf-8"),
   ("access-control-allow-origin", "*"),
   ("access-control-allow-headers", "content-type"),
   ("access-control-allow-methods", "POST, OPTIONS")]

def preflightHeaders : List (String × String) :=
  [("access-control-allow-origin", "*"),
   ("access-control-allow-headers", "content-type"),
   ("access-control-allow-methods", "POST, OPTIONS")]

/-- `jsonResponse(statusCode, bodyObj)`. -/
def jsonResponse (statusCode : Nat) (bodyObj : Json) : Response :=
  ⟨statusCode, corsHeaders, bodyObj⟩

/-! ### The request handlers -/

def MAX_INPUT_CHARS : Nat := 8000

def MAX_BODY_BYTES : Nat := 64 * 1024

/-- Per-endpoint configuration: the only two points where the two handler
sources differ in claim-relevant behaviour. -/
structure EndpointConfig where
  fieldName : String
  nextPat : List Char → Bool

/-- The `event.body && typeof event.body === "string" &&
Buffer.byteLength(event.body, "utf8") > MAX_BODY_BYTES` guard. -/
def bodyTooLarge (ev : Event) : Bool :=
  match ev.body with
  | some s => !(s == "") && decide (MAX_BODY_BYTES < utf8Len s)
  | none => false

/-- `const bodyText = event.isBase64Encoded ? Buffer.from(event.body || "",
"base64").toString("utf8") : (event.body || "")`. -/
def effectiveBodyText (plat : Platform) (ev : Event) : String :=
  if ev.isBase64Encoded then plat.base64Decode (ev.body.getD "")
  else ev.body.getD ""

/-- The argument of `safeJsonParse(bodyText || "\x7b\x7d")`. -/
def parseArg (plat : Platform) (ev : Event) : String :=
  if effectiveBodyText plat ev == "" then "\x7b\x7d"
  else effectiveBodyText plat ev

/-- `payload = parsed.value || \x7b\x7d`. -/
def payloadOf (pv : Json) : Json := if jsFalsy pv then Json.obj [] else pv

/-- `typeof payload.<field> === "string" ? payload.<field> : ""`. -/
def fieldValOf (pv : Json) (field : String) : String :=
  match jsonLookup (payloadOf pv) field with
  | some (.str s) => s
  | _ => ""

/-- The `requestId` value placed in response bodies (`null` when absent). -/
def ridJson (ev : Event) : Json :=
  match getRequestId ev with
  | some r => Json.str r
  | none => Json.null

/-- Handler result: the response plus a flag recording whether the completion
client (the sole effectful stage) was invoked. -/
structure HandlerOut where
  resp : Response
  providerCalled : Bool
deriving DecidableEq

/-- The `try { ... client.responses.create ... } catch (err) { ... }` block:
the provider call and everything after it, with the `catch` applying
`toHttpError`.  Every alternative sets the `providerCalled` flag, because the
completion client has been invoked on all of these paths. -/
def completionStage (cfg : EndpointConfig) (env : Env) (plat : Platform)
    (provider : ProviderOutcome) (ev : Event) : HandlerOut :=
  match provider with
  | .throws e =>
    ⟨jsonResponse (toHttpError e).statusCode
      (.obj ([("error", .str (toHttpError e).message),
              ("requestId", ridJson ev)] ++
        (if debugErrors env then [("details", .str e.msg)] else []))), true⟩
  | .returns none =>
    ⟨jsonResponse 502
      (.obj [("error", .str "No text output received from model."),
             ("requestId", ridJson ev)]), true⟩
  | .returns (some text) =>
    if text == "" then
      ⟨jsonResponse 502
        (.obj [("error", .str "No text output received from model."),
               ("requestId", ridJson ev)]), true⟩
    else
      match plat.jsonParse text with
      | none =>
        ⟨jsonResponse 502
          (.obj ([("error", .str "Model returned non-JSON output."),
                  ("requestId", ridJson ev)] ++
            (if debugErrors env then
              [("model_output", .str (strTake 2000 text))] else []))), true⟩
      | some modelVal =>
        match validateShape cfg.nextPat modelVal with
        | some shapeErr =>
          ⟨jsonResponse 502
            (.obj ([("error", .str "Model returned an invalid response shape."),
                    ("requestId", ridJson ev)] ++
              (if debugErrors env then
                [("details", .str shapeErr),
                 ("model_output", .str (strTake 2000 text))] else []))), true⟩
        | none => ⟨jsonResponse 200 modelVal, true⟩

/-- The shared handler body.  Faithful to the source order of checks:
OPTIONS pre-flight, method, missing `OPENAI_API_KEY` (the empty string is
falsy), request-id extraction, body-size ceiling, JSON parse, required text
field, input-length ceiling, then `completionStage`.  The prompt-building
stage (fixed strings around the input text) affects no claimed behaviour and
is elided between the length check and the provider call. -/
def handlerCore (cfg : EndpointConfig) (env : Env) (plat : Platform)
    (provider : ProviderOutcome) (ev : Event) : HandlerOut :=
  if ev.httpMethod == "OPTIONS" then
    ⟨⟨204, preflightHeaders, .str ""⟩, false⟩
  else if !(ev.httpMethod == "POST") then
    ⟨jsonResponse 405 (.obj [("error", .str "Method not allowed. Use POST.")]), false⟩
  else if !(match env.openaiApiKey with
            | some k => !(k == "")
            | none => false) then
    ⟨jsonResponse 500
      (.obj [("error", .str "Missing OPENAI_API_KEY environment variable.")]), false⟩
  else if bodyTooLarge ev then
    ⟨jsonResponse 413
      (.obj [("error", .str "Request body too large."), ("requestId", ridJson ev)]),
      false⟩
  else
    match plat.jsonParse (parseArg plat ev) with
    | none =>
      ⟨jsonResponse 400
        (.obj [("error", .str "Invalid JSON body."), ("requestId", ridJson ev)]),
        false⟩
    | some pv =>
      if jsTrimLen (fieldValOf pv cfg.fieldName) == 0 then
        ⟨jsonResponse 400
          (.obj [("error", .str ("Missing required field: " ++ cfg.fieldName)),
                 ("requestId", ridJson ev)]), false⟩
      else if decide (MAX_INPUT_CHARS < jsLength (fieldValOf pv cfg.fieldName)) then
        ⟨jsonResponse 400
          (.obj [("error", .str ("Input is too long. Please keep it under " ++
                   toString MAX_INPUT_CHARS ++ " characters.")),
                 ("requestId", ridJson ev)]), false⟩
      else completionStage cfg env plat provider ev

/-- The triage endpoint (required field `userMessage`, closed-verb-list
`next_steps` regex). -/
def triageConfig : EndpointConfig :=
  ⟨"userMessage", triageNextStepsPattern⟩

/-- The generatePlan endpoint (required field `input`, capitalized-word
`next_steps` regex). -/
def planConfig : EndpointConfig :=
  ⟨"input", planNextStepsPattern⟩

/-- The triage `handler`. -/
def handlerTriage (env : Env) (plat : Platform) (provider : ProviderOutcome)
    (ev : Event) : HandlerOut :=
  handlerCore triageConfig env plat provider ev

/-- The generatePlan `handler`. -/
def handlerPlan (env : Env) (plat : Platform) (provider : ProviderOutcome)
    (ev : Event) : HandlerOut :=
  handlerCore planConfig env plat provider ev

/-! ### Inversion lemmas about the handler control flow -/

/-- `toHttpError` only ever produces status 502 or 429. -/
theorem toHttpError_status (e : ErrVal) :
    (toHttpError e).statusCode = 502 ∨ (toHttpError e).statusCode = 429 := by
  unfold toHttpError
  rcases e.status with _ | n
  · exact Or.inl rfl
  · simp only
    split
    · exact Or.inl rfl
    · split
      · exact Or.inr rfl
      · split
        · exact Or.inl rfl
        · exact Or.inl rfl

/-- If the inbound request carries a correlation id, the `requestId` value in
response bodies is that id as a JSON string. -/
theorem ridJson_of_some {ev : Event} {rid : String}
    (h : getRequestId ev = some rid) : ridJson ev = Json.str rid := by
  unfold ridJson
  rw [h]

/-- Exhaustive classification of handler outcomes: the pre-flight response,
the two responses emitted before the request id is read (405 and
missing-credential 500), an error envelope `error`/`requestId`/debug-fields
with status 413, 400, 429 or 502, or the 200 pass-through of a
shape-validated model value. -/
theorem handlerCore_classify (cfg : EndpointConfig) (env : Env) (plat : Platform)
    (prov : ProviderOutcome) (ev : Event) :
    handlerCore cfg env plat prov ev = ⟨⟨204, preflightHeaders, .str ""⟩, false⟩ ∨
    handlerCore cfg env plat prov ev =
      ⟨jsonResponse 405 (.obj [("error", .str "Method not allowed. Use POST.")]),
        false⟩ ∨
    handlerCore cfg env plat prov ev =
      ⟨jsonResponse 500
        (.obj [("error", .str "Missing OPENAI_API_KEY environment variable.")]),
        false⟩ ∨
    (∃ st msg dbg called, (st = 413 ∨ st = 400 ∨ st = 429 ∨ st = 502) ∧
      (debugErrors env = false → dbg = []) ∧
      (∀ p ∈ dbg, Prod.fst p = "details" ∨ Prod.fst p = "model_output") ∧
      handlerCore cfg env plat prov ev =
        ⟨jsonResponse st
          (.obj ([("error", .str msg), ("requestId", ridJson ev)] ++ dbg)), called⟩) ∨
    (∃ text v, prov = .returns (some text) ∧ plat.jsonParse text = some v ∧
      validateShape cfg.nextPat v = none ∧
      handlerCore cfg env plat prov ev = ⟨jsonResponse 200 v, true⟩) := by
  unfold handlerCore
  split
  · exact Or.inl rfl
  · split
    · exact Or.inr (Or.inl rfl)
    · split
      · exact Or.inr (Or.inr (Or.inl rfl))
      · split
        · refine Or.inr (Or.inr (Or.inr (Or.inl
            ⟨413, "Request body too large.", [], false, Or.inl rfl, fun _ => rfl,
              by simp, ?_⟩)))
          simp
        · split
          · refine Or.inr (Or.inr (Or.inr (Or.inl
              ⟨400, "Invalid JSON body.", [], false, Or.inr (Or.inl rfl),
                fun _ => rfl, by simp, ?_⟩)))
            simp
          · split
            · refine Or.inr (Or.inr (Or.inr (Or.inl
                ⟨400, "Missing required field: " ++ cfg.fieldName, [], false,
                  Or.inr (Or.inl rfl), fun _ => rfl, by simp, ?_⟩)))
              simp
            · split
              · refine Or.inr (Or.inr (Or.inr (Or.inl
                  ⟨400, "Input is too long. Please keep it under " ++
                      toString MAX_INPUT_CHARS ++ " characters.", [], false,
                    Or.inr (Or.inl rfl), fun _ => rfl, by simp, ?_⟩)))
                simp
              · unfold completionStage
                match prov with
                | .throws e =>
                  refine Or.inr (Or.inr (Or.inr (Or.inl
                    ⟨(toHttpError e).statusCode, (toHttpError e).message,
                      if debugErrors env then [("details", .str e.msg)] else [],
                      true, ?_, fun hf => by simp [hf], ?_, rfl⟩)))
                  · rcases toHttpError_status e with h | h
                    · exact Or.inr (Or.inr (Or.inr h))
                    · exact Or.inr (Or.inr (Or.inl h))
                  · split
                    · simp
                    · simp
                | .returns none =>
                  refine Or.inr (Or.inr (Or.inr (Or.inl
                    ⟨502, "No text output received from model.", [], true,
                      Or.inr (Or.inr (Or.inr rfl)), fun _ => rfl, by simp, ?_⟩)))
                  simp
                | .returns (some text) =>
                  simp only
                  split
                  · refine Or.inr (Or.inr (Or.inr (Or.inl
                      ⟨502, "No text output received from model.", [], true,
                        Or.inr (Or.inr (Or.inr rfl)), fun _ => rfl, by simp, ?_⟩)))
                    simp
                  · split
                    · refine Or.inr (Or.inr (Or.inr (Or.inl
                        ⟨502, "Model returned non-JSON output.",
                          if debugErrors env then
                            [("model_output", .str (strTake 2000 text))] else [],
                          true, Or.inr (Or.inr (Or.inr rfl)),
                          fun hf => by simp [hf], ?_, rfl⟩)))
                      split
                      · simp
                      · simp
                    · rename_i modelVal hparse
                      split
                      · refine Or.inr (Or.inr (Or.inr (Or.inl
                          ⟨502, "Model returned an invalid response shape.",
                            if debugErrors env then
                              [("details", .str _),
                               ("model_output", .str (strTake 2000 text))] else [],
                            true, Or.inr (Or.inr (Or.inr rfl)),
                            fun hf => by simp [hf], ?_, rfl⟩)))
                        split
                        · simp
                        · simp
                      · rename_i hshape
                        exact Or.inr (Or.inr (Or.inr (Or.inr
                          ⟨text, modelVal, rfl, hparse, hshape, rfl⟩)))

/-- Once the method, credential, size, parse, field and length checks have
all passed, the handler result is exactly the completion stage. -/
theorem handlerCore_completion (cfg : EndpointConfig) (env : Env)
    (plat : Platform) (prov : ProviderOutcome) (ev : Event) (k : String)
    (pv : Json)
    (hm : ev.httpMethod = "POST") (hk : env.openaiApiKey = some k)
    (hk2 : k ≠ "") (hs : bodyTooLarge ev = false)
    (hp : plat.jsonParse (parseArg plat ev) = some pv)
    (hf : jsTrimLen (fieldValOf pv cfg.fieldName) ≠ 0)
    (hl : jsLength (fieldValOf pv cfg.fieldName) ≤ MAX_INPUT_CHARS) :
    handlerCore cfg env plat prov ev = completionStage cfg env plat prov ev := by
  have h1 : (ev.httpMethod == "OPTIONS") = false := by rw [hm]; rfl
  have h2 : (ev.httpMethod == "POST") = true := by rw [hm]; rfl
  have h3 : (k == "") = false := beq_eq_false_iff_ne.mpr hk2
  have h4 : (jsTrimLen (fieldValOf pv cfg.fieldName) == 0) = false :=
    beq_eq_false_iff_ne.mpr hf
  have h5 : decide (MAX_INPUT_CHARS < jsLength (fieldValOf pv cfg.fieldName)) = false :=
    decide_eq_false (not_lt.mpr hl)
  unfold handlerCore
  rw [h1, h2, hk]
  simp only [h3, h4, h5, hs, hp, Bool.not_false, Bool.not_true, if_false, if_true,
    Bool.false_eq_true, ite_false]

/-! ### Concrete fixtures and length lemmas for the witnesses and
counterexamples -/

def envNoKey : Env := ⟨none, none, none⟩

def envWithKey : Env := ⟨some "sk-test", none, none⟩

/-- A `JSON.parse` oracle on which every parse fails, with identity base64. -/
def platNone : Platform := ⟨fun _ => none, id⟩

def provNone : ProviderOutcome := .returns none

theorem utf8Len_replicate_a (n : Nat) :
    utf8Len (String.mk (List.replicate n 'a')) = n := by
  unfold utf8Len
  show ((List.replicate n 'a').map charUtf8Len).sum = n
  rw [List.map_replicate]
  have h : charUtf8Len 'a' = 1 := by decide
  rw [h, List.sum_replicate, smul_eq_mul, mul_one]

theorem jsLength_replicate_a (n : Nat) :
    jsLength (String.mk (List.replicate n 'a')) = n := by
  unfold jsLength
  show ((List.replicate n 'a').map charUtf16Len).sum = n
  rw [List.map_replicate]
  have h : charUtf16Len 'a' = 1 := by decide
  rw [h, List.sum_replicate, smul_eq_mul, mul_one]

theorem dropWhile_space_replicate_a (m : Nat) :
    (List.replicate m 'a').dropWhile isJsSpace = List.replicate m 'a' := by
  cases m with
  | zero => rfl
  | succ m' =>
    rw [List.replicate_succ, List.dropWhile_cons]
    have h : isJsSpace 'a' = false := by decide
    simp [h]

theorem jsTrimLen_replicate_a (n : Nat) :
    jsTrimLen (String.mk (List.replicate n 'a')) = n := by
  unfold jsTrimLen jsTrimList
  show (((List.replicate n 'a').dropWhile isJsSpace).reverse.dropWhile
    isJsSpace).reverse.length = n
  rw [dropWhile_space_replicate_a, List.reverse_replicate,
    dropWhile_space_replicate_a, List.reverse_replicate, List.length_replicate]

/-- A 65537-byte request body (one byte per character). -/
def bigBody : String := String.mk (List.replicate 65537 'a')

def evBigBody : Event := ⟨"POST", [], some bigBody, false⟩

theorem bodyTooLarge_evBigBody : bodyTooLarge evBigBody = true := by
  have h1 : utf8Len bigBody = 65537 := utf8Len_replicate_a 65537
  show (!(bigBody == "") && decide (MAX_BODY_BYTES < utf8Len bigBody)) = true
  rw [h1]
  decide

/-! ### C3: order of the error checks -/

/-- C3 counterexample: a POST request whose body exceeds the 65536-byte
ceiling, sent while `OPENAI_API_KEY` is absent, is answered with the 500
configuration error, not the 413 rejection the claim requires — the handler
checks the credential before the body size. -/
theorem claim_C3_cx :
    MAX_BODY_BYTES < utf8Len bigBody ∧
    evBigBody.httpMethod = "POST" ∧ envNoKey.openaiApiKey = none ∧
    (handlerTriage envNoKey platNone provNone evBigBody).resp.statusCode = 500 ∧
    (handlerTriage envNoKey platNone provNone evBigBody).resp.statusCode ≠ 413 := by
  refine ⟨?_, rfl, rfl, rfl, ?_⟩
  · have h : utf8Len bigBody = 65537 := utf8Len_replicate_a 65537
    rw [h]
    decide
  · have h : (handlerTriage envNoKey platNone provNone evBigBody).resp.statusCode
        = 500 := rfl
    rw [h]
    decide

/-- C3 (amended): the checks are applied in the order 405 method, 500 missing
credential, 413 body size, 400 malformed JSON (the field checks follow); in
particular the missing-credential check precedes the size ceiling. -/
theorem claim_C3 (cfg : EndpointConfig) (env : Env) (plat : Platform)
    (prov : ProviderOutcome) (ev : Event) :
    (ev.httpMethod ≠ "OPTIONS" → ev.httpMethod ≠ "POST" →
      handlerCore cfg env plat prov ev =
        ⟨jsonResponse 405 (.obj [("error", .str "Method not allowed. Use POST.")]),
          false⟩) ∧
    (ev.httpMethod = "POST" →
      (env.openaiApiKey = none ∨ env.openaiApiKey = some "") →
      handlerCore cfg env plat prov ev =
        ⟨jsonResponse 500
          (.obj [("error", .str "Missing OPENAI_API_KEY environment variable.")]),
          false⟩) ∧
    (∀ k, ev.httpMethod = "POST" → env.openaiApiKey = some k → k ≠ "" →
      bodyTooLarge ev = true →
      handlerCore cfg env plat prov ev =
        ⟨jsonResponse 413
          (.obj [("error", .str "Request body too large."),
                 ("requestId", ridJson ev)]), false⟩) ∧
    (∀ k, ev.httpMethod = "POST" → env.openaiApiKey = some k → k ≠ "" →
      bodyTooLarge ev = false → plat.jsonParse (parseArg plat ev) = none →
      handlerCore cfg env plat prov ev =
        ⟨jsonResponse 400
          (.obj [("error", .str "Invalid JSON body."),
                 ("requestId", ridJson ev)]), false⟩) := by
  refine ⟨?_, ?_, ?_, ?_⟩
  · intro h1 h2
    have e1 : (ev.httpMethod == "OPTIONS") = false := beq_eq_false_iff_ne.mpr h1
    have e2 : (ev.httpMethod == "POST") = false := beq_eq_false_iff_ne.mpr h2
    unfold handlerCore
    rw [e1, e2]
    simp
  · intro h1 h2
    have e1 : (ev.httpMethod == "OPTIONS") = false := by rw [h1]; rfl
    have e2 : (ev.httpMethod == "POST") = true := by rw [h1]; rfl
    unfold handlerCore
    rw [e1, e2]
    rcases h2 with h2 | h2 <;> rw [h2] <;> simp
  · intro k h1 h2 h3 h4
    have e1 : (ev.httpMethod == "OPTIONS") = false := by rw [h1]; rfl
    have e2 : (ev.httpMethod == "POST") = true := by rw [h1]; rfl
    have e3 : (k == "") = false := beq_eq_false_iff_ne.mpr h3
    unfold handlerCore
    rw [e1, e2, h2]
    simp [e3, h4]
  · intro k h1 h2 h3 h4 h5
    have e1 : (ev.httpMethod == "OPTIONS") = false := by rw [h1]; rfl
    have e2 : (ev.httpMethod == "POST") = true := by rw [h1]; rfl
    have e3 : (k == "") = false := beq_eq_false_iff_ne.mpr h3
    unfold handlerCore
    rw [e1, e2, h2]
    simp [e3, h4, h5]

/-- C3 witness: the amended order theorem applied at concrete requests
(a GET, a keyless POST, an oversized POST with a key, and an unparseable
POST body). -/
theorem claim_C3_wit :
    handlerCore triageConfig envWithKey platNone provNone
        ⟨"GET", [], none, false⟩ =
      ⟨jsonResponse 405 (.obj [("error", .str "Method not allowed. Use POST.")]),
        false⟩ ∧
    handlerCore triageConfig envNoKey platNone provNone
        ⟨"POST", [], none, false⟩ =
      ⟨jsonResponse 500
        (.obj [("error", .str "Missing OPENAI_API_KEY environment variable.")]),
        false⟩ ∧
    handlerCore triageConfig envWithKey platNone provNone evBigBody =
      ⟨jsonResponse 413
        (.obj [("error", .str "Request body too large."),
               ("requestId", ridJson evBigBody)]), false⟩ ∧
    handlerCore triageConfig envWithKey platNone provNone
        ⟨"POST", [], some "not json", false⟩ =
      ⟨jsonResponse 400
        (.obj [("error", .str "Invalid JSON body."),
               ("requestId", ridJson ⟨"POST", [], some "not json", false⟩)]),
        false⟩ := by
  refine ⟨?_, ?_, ?_, ?_⟩
  · exact (claim_C3 triageConfig envWithKey platNone provNone
      ⟨"GET", [], none, false⟩).1 (by decide) (by decide)
  · exact (claim_C3 triageConfig envNoKey platNone provNone
      ⟨"POST", [], none, false⟩).2.1 rfl (Or.inl rfl)
  · exact (claim_C3 triageConfig envWithKey platNone provNone evBigBody).2.2.1
      "sk-test" rfl rfl (by decide) bodyTooLarge_evBigBody
  · exact (claim_C3 triageConfig envWithKey platNone provNone
      ⟨"POST", [], some "not json", false⟩).2.2.2
      "sk-test" rfl rfl (by decide) (by decide) rfl

/-! ### C4: the correlation id on outbound responses -/

def evGetRid : Event := ⟨"GET", [("x-request-id", "abc")], none, false⟩

/-- C4 counterexample: a request carrying correlation id `abc` whose response
(the 405 method-not-allowed envelope) has no `requestId` field at all. -/
theorem claim_C4_cx :
    getRequestId evGetRid = some "abc" ∧
    (handlerTriage envNoKey platNone provNone evGetRid).resp.statusCode = 405 ∧
    jsonLookup (handlerTriage envNoKey platNone provNone evGetRid).resp.body
      "requestId" = none := by
  exact ⟨rfl, rfl, rfl⟩

/-- C4 (amended): the correlation id appears unchanged in the `requestId`
field of every outbound error response other than the 405 method-not-allowed
and the 500 missing-credential responses (which are built before the id is
read); the 204 pre-flight has no JSON body and the 200 success body is the
validated model object, which carries no `requestId` either. -/
theorem claim_C4 (cfg : EndpointConfig) (env : Env) (plat : Platform)
    (prov : ProviderOutcome) (ev : Event) (rid : String)
    (hrid : getRequestId ev = some rid)
    (h204 : (handlerCore cfg env plat prov ev).resp.statusCode ≠ 204)
    (h405 : (handlerCore cfg env plat prov ev).resp.statusCode ≠ 405)
    (h500 : (handlerCore cfg env plat prov ev).resp.statusCode ≠ 500)
    (h200 : (handlerCore cfg env plat prov ev).resp.statusCode ≠ 200) :
    jsonLookup (handlerCore cfg env plat prov ev).resp.body "requestId" =
      some (.str rid) := by
  rcases handlerCore_classify cfg env plat prov ev with
    h | h | h | ⟨st, msg, dbg, called, hst, _, _, h⟩ | ⟨text, v, _, _, _, h⟩
  · rw [h] at h204; exact absurd rfl h204
  · rw [h] at h405; exact absurd rfl h405
  · rw [h] at h500; exact absurd rfl h500
  · rw [h, ridJson_of_some hrid]
    have hne : ("error" : String) ≠ "requestId" := by decide
    show lookupField (("error", Json.str msg) ::
      ("requestId", Json.str rid) :: dbg) "requestId" = some (Json.str rid)
    rw [lookupField, if_neg hne, lookupField, if_pos rfl]
  · rw [h] at h200; exact absurd rfl h200

def evPostRid : Event := ⟨"POST", [("x-request-id", "abc")], some "x", false⟩

/-- C4 witness: the amended theorem applied at a concrete request whose body
fails JSON parsing (a 400 response carrying the id). -/
theorem claim_C4_wit :
    jsonLookup (handlerCore triageConfig envWithKey platNone provNone
      evPostRid).resp.body "requestId" = some (.str "abc") :=
  claim_C4 triageConfig envWithKey platNone provNone evPostRid "abc"
    (by decide) (by decide) (by decide) (by decide) (by decide)

/-! ### C7: provider failure classification -/

/-- C7: `toHttpError` classifies every thrown error — 401/403 to the 502
auth outcome, 429 to the 429 throttling outcome, any status at least 500 to
the 502 provider-error outcome, and everything else (including errors with no
numeric status) to the generic 502 outcome — and a throwing provider call is
caught and converted to exactly this JSON error envelope. -/
theorem claim_C7 :
    (∀ e : ErrVal, e.status = some 401 ∨ e.status = some 403 →
      toHttpError e = ⟨502, "LLM authentication failed."⟩) ∧
    (∀ e : ErrVal, e.status = some 429 →
      toHttpError e = ⟨429, "Rate limited by LLM provider. Try again shortly."⟩) ∧
    (∀ (e : ErrVal) (n : Int), e.status = some n → 500 ≤ n →
      toHttpError e = ⟨502, "LLM provider error. Try again shortly."⟩) ∧
    (∀ e : ErrVal,
      (∀ n : Int, e.status = some n → n ≠ 401 ∧ n ≠ 403 ∧ n ≠ 429 ∧ n < 500) →
      toHttpError e = ⟨502, "LLM request failed."⟩) ∧
    (∀ (cfg : EndpointConfig) (env : Env) (plat : Platform)
        (prov : ProviderOutcome) (ev : Event) (k : String) (pv : Json)
        (e : ErrVal),
      ev.httpMethod = "POST" → env.openaiApiKey = some k → k ≠ "" →
      bodyTooLarge ev = false → plat.jsonParse (parseArg plat ev) = some pv →
      jsTrimLen (fieldValOf pv cfg.fieldName) ≠ 0 →
      jsLength (fieldValOf pv cfg.fieldName) ≤ MAX_INPUT_CHARS →
      prov = .throws e →
      handlerCore cfg env plat prov ev =
        ⟨jsonResponse (toHttpError e).statusCode
          (.obj ([("error", .str (toHttpError e).message),
                  ("requestId", ridJson ev)] ++
            (if debugErrors env then [("details", .str e.msg)] else []))),
          true⟩) := by
  refine ⟨?_, ?_, ?_, ?_, ?_⟩
  · intro e h
    unfold toHttpError
    rcases h with h | h <;> rw [h] <;> rfl
  · intro e h
    unfold toHttpError
    rw [h]
    rfl
  · intro e n h hn
    unfold toHttpError
    rw [h]
    have e1 : (n == 401) = false := beq_eq_false_iff_ne.mpr (by omega)
    have e2 : (n == 403) = false := beq_eq_false_iff_ne.mpr (by omega)
    have e3 : (n == 429) = false := beq_eq_false_iff_ne.mpr (by omega)
    have e4 : (n == 0) = false := beq_eq_false_iff_ne.mpr (by omega)
    have e5 : decide (500 ≤ n) = true := decide_eq_true hn
    simp only [e1, e2, e3, e4, e5, Bool.or_self, Bool.false_or, Bool.not_false,
      Bool.and_self, if_false, if_true, Bool.false_eq_true, ite_false, ite_true,
      Bool.true_and]
  · intro e h
    unfold toHttpError
    rcases hs : e.status with _ | n
    · rfl
    · have hn := h n hs
      have e1 : (n == 401) = false := beq_eq_false_iff_ne.mpr hn.1
      have e2 : (n == 403) = false := beq_eq_false_iff_ne.mpr hn.2.1
      have e3 : (n == 429) = false := beq_eq_false_iff_ne.mpr hn.2.2.1
      have e5 : decide (500 ≤ n) = false := decide_eq_false (by omega)
      simp only [e1, e2, e3, e5, Bool.or_self, Bool.false_or, Bool.and_false,
        if_false, Bool.false_eq_true, ite_false]
  · intro cfg env plat prov ev k pv e hm hk hk2 hs hp hf hl hprov
    subst hprov
    exact handlerCore_completion cfg env plat (.throws e) ev k pv
      hm hk hk2 hs hp hf hl

/-- A parse oracle that accepts one fixed inbound body holding a valid
`userMessage`/`input` object and rejects everything else. -/
def platIn : Platform :=
  ⟨fun s => if s = "IN" then
      some (.obj [("userMessage", .str "help me now"), ("input", .str "help me now")])
    else none, id⟩

def evPostIn : Event := ⟨"POST", [], some "IN", false⟩

/-- C7 witness: the classification applied at errors with status 401, 429,
503 and at a status-free error, and the handler conversion applied to a
concrete throwing provider call. -/
theorem claim_C7_wit :
    toHttpError ⟨some 401, "unauthorized"⟩ =
      ⟨502, "LLM authentication failed."⟩ ∧
    toHttpError ⟨some 429, "slow down"⟩ =
      ⟨429, "Rate limited by LLM provider. Try again shortly."⟩ ∧
    toHttpError ⟨some 503, "overloaded"⟩ =
      ⟨502, "LLM provider error. Try again shortly."⟩ ∧
    toHttpError ⟨none, "socket hang up"⟩ = ⟨502, "LLM request failed."⟩ ∧
    handlerCore triageConfig envWithKey platIn
        (.throws ⟨some 503, "overloaded"⟩) evPostIn =
      ⟨jsonResponse 502
        (.obj [("error", .str "LLM provider error. Try again shortly."),
               ("requestId", ridJson evPostIn)]), true⟩ := by
  refine ⟨?_, ?_, ?_, ?_, ?_⟩
  · exact claim_C7.1 ⟨some 401, "unauthorized"⟩ (Or.inl rfl)
  · exact claim_C7.2.1 ⟨some 429, "slow down"⟩ rfl
  · exact claim_C7.2.2.1 ⟨some 503, "overloaded"⟩ 503 rfl (by decide)
  · exact claim_C7.2.2.2.1 ⟨none, "socket hang up"⟩ (fun n h => by cases h)
  · have h := claim_C7.2.2.2.2 triageConfig envWithKey platIn
      (.throws ⟨some 503, "overloaded"⟩) evPostIn "sk-test"
      (.obj [("userMessage", .str "help me now"), ("input", .str "help me now")])
      ⟨some 503, "overloaded"⟩ rfl rfl (by decide) (by decide) (by decide)
      (by decide) (by decide) rfl
    rw [h]
    rfl

/-! ### C8: debug fields only under the operator flag -/

theorem strTake_length_le (n : Nat) (s : String) : (strTake n s).length ≤ n := by
  show (s.data.take n).length ≤ n
  rw [List.length_take]
  exact min_le_left n s.data.length

/-- C8: with the debug flag off, no response body of any non-200 outcome
contains a `details` or `model_output` field; with the flag on, the non-JSON
and invalid-shape 502 envelopes carry `model_output` equal to the model text
truncated to at most 2000 characters (plus `details` for the shape error). -/
theorem claim_C8 :
    (∀ (cfg : EndpointConfig) (env : Env) (plat : Platform)
        (prov : ProviderOutcome) (ev : Event),
      debugErrors env = false →
      (handlerCore cfg env plat prov ev).resp.statusCode ≠ 200 →
      jsonLookup (handlerCore cfg env plat prov ev).resp.body "details" = none ∧
      jsonLookup (handlerCore cfg env plat prov ev).resp.body "model_output"
        = none) ∧
    (∀ (cfg : EndpointConfig) (env : Env) (plat : Platform)
        (prov : ProviderOutcome) (ev : Event) (k : String) (pv : Json)
        (text : String),
      debugErrors env = true →
      ev.httpMethod = "POST" → env.openaiApiKey = some k → k ≠ "" →
      bodyTooLarge ev = false → plat.jsonParse (parseArg plat ev) = some pv →
      jsTrimLen (fieldValOf pv cfg.fieldName) ≠ 0 →
      jsLength (fieldValOf pv cfg.fieldName) ≤ MAX_INPUT_CHARS →
      prov = .returns (some text) → text ≠ "" →
      (plat.jsonParse text = none →
        jsonLookup (handlerCore cfg env plat prov ev).resp.body "model_output" =
          some (.str (strTake 2000 text)) ∧
        (strTake 2000 text).length ≤ 2000) ∧
      (∀ v err, plat.jsonParse text = some v →
        validateShape cfg.nextPat v = some err →
        jsonLookup (handlerCore cfg env plat prov ev).resp.body "model_output" =
          some (.str (strTake 2000 text)) ∧
        jsonLookup (handlerCore cfg env plat prov ev).resp.body "details" =
          some (.str err) ∧
        (strTake 2000 text).length ≤ 2000)) := by
  constructor
  · intro cfg env plat prov ev hdbg h200
    rcases handlerCore_classify cfg env plat prov ev with
      h | h | h | ⟨st, msg, dbg, called, hst, hdf, _, h⟩ | ⟨text, v, _, _, _, h⟩
    · rw [h]
      exact ⟨rfl, rfl⟩
    · rw [h]
      exact ⟨rfl, rfl⟩
    · rw [h]
      exact ⟨rfl, rfl⟩
    · rw [h, hdf hdbg]
      constructor
      · show lookupField (("error", Json.str msg) ::
          ("requestId", ridJson ev) :: []) "details" = none
        rw [lookupField, if_neg (by decide), lookupField, if_neg (by decide)]
        rfl
      · show lookupField (("error", Json.str msg) ::
          ("requestId", ridJson ev) :: []) "model_output" = none
        rw [lookupField, if_neg (by decide), lookupField, if_neg (by decide)]
        rfl
    · rw [h] at h200
      exact absurd rfl h200
  · intro cfg env plat prov ev k pv text hdbg hm hk hk2 hs hp hf hl hprov htext
    subst hprov
    have hcomp := handlerCore_completion cfg env plat (.returns (some text)) ev
      k pv hm hk hk2 hs hp hf hl
    have hne : (text == "") = false := beq_eq_false_iff_ne.mpr htext
    constructor
    · intro hparse
      rw [hcomp]
      unfold completionStage
      simp only [hne, Bool.false_eq_true, if_false, ite_false, hparse, hdbg,
        if_true, ite_true]
      refine ⟨?_, strTake_length_le 2000 text⟩
      show lookupField (("error", Json.str "Model returned non-JSON output.") ::
        ("requestId", ridJson ev) ::
        ("model_output", Json.str (strTake 2000 text)) :: []) "model_output" =
        some (Json.str (strTake 2000 text))
      rw [lookupField, if_neg (by decide), lookupField, if_neg (by decide),
        lookupField, if_pos rfl]
    · intro v err hparse hshape
      rw [hcomp]
      unfold completionStage
      simp only [hne, Bool.false_eq_true, if_false, ite_false, hparse, hshape,
        hdbg, if_true, ite_true]
      refine ⟨?_, ?_, strTake_length_le 2000 text⟩
      · show lookupField
          (("error", Json.str "Model returned an invalid response shape.") ::
           ("requestId", ridJson ev) :: ("details", Json.str err) ::
           ("model_output", Json.str (strTake 2000 text)) :: []) "model_output" =
          some (Json.str (strTake 2000 text))
        rw [lookupField, if_neg (by decide), lookupField, if_neg (by decide),
          lookupField, if_neg (by decide), lookupField, if_pos rfl]
      · show lookupField
          (("error", Json.str "Model returned an invalid response shape.") ::
           ("requestId", ridJson ev) :: ("details", Json.str err) ::
           ("model_output", Json.str (strTake 2000 text)) :: []) "details" =
          some (Json.str err)
        rw [lookupField, if_neg (by decide), lookupField, if_neg (by decide),
          lookupField, if_pos rfl]

def envDbg : Env := ⟨some "sk-test", none, some "true"⟩

/-- A parse oracle for the debug witness: parses the inbound body and fails
on the model text `not json`. -/
def platDbg : Platform :=
  ⟨fun s => if s = "IN" then
      some (.obj [("userMessage", .str "help me now"), ("input", .str "help me now")])
    else none, id⟩

/-- C8 witness: with debugging off, a concrete 400 response carries neither
debug field; with debugging on, a concrete non-JSON model output carries the
truncated `model_output`. -/
theorem claim_C8_wit :
    (jsonLookup (handlerCore triageConfig envWithKey platNone provNone
        evPostRid).resp.body "details" = none ∧
      jsonLookup (handlerCore triageConfig envWithKey platNone provNone
        evPostRid).resp.body "model_output" = none) ∧
    (jsonLookup (handlerCore triageConfig envDbg platDbg
        (.returns (some "not json")) evPostIn).resp.body "model_output" =
      some (.str (strTake 2000 "not json")) ∧
      (strTake 2000 "not json").length ≤ 2000) := by
  constructor
  · exact claim_C8.1 triageConfig envWithKey platNone provNone evPostRid
      (by decide) (by decide)
  · exact (claim_C8.2 triageConfig envDbg platDbg
      (.returns (some "not json")) evPostIn "sk-test"
      (.obj [("userMessage", .str "help me now"), ("input", .str "help me now")])
      "not json" (by decide) rfl rfl (by decide) (by decide) (by decide)
      (by decide) (by decide) rfl (by decide)).1 (by decide)

/-! ### C5 and C6: the required-field and length checks -/

/-- Shared inversion: when the method, credential, size and parse checks pass
and the designated field is empty after trimming (also when absent or not a
string, both of which coerce to `""`), the handler returns the 400
missing-field envelope without invoking the provider. -/
theorem handlerCore_missing_field (cfg : EndpointConfig) (env : Env)
    (plat : Platform) (prov : ProviderOutcome) (ev : Event) (k : String)
    (pv : Json)
    (hm : ev.httpMethod = "POST") (hk : env.openaiApiKey = some k)
    (hk2 : k ≠ "") (hs : bodyTooLarge ev = false)
    (hp : plat.jsonParse (parseArg plat ev) = some pv)
    (hfv : jsTrimLen (fieldValOf pv cfg.fieldName) = 0) :
    handlerCore cfg env plat prov ev =
      ⟨jsonResponse 400
        (.obj [("error", .str ("Missing required field: " ++ cfg.fieldName)),
               ("requestId", ridJson ev)]), false⟩ := by
  have h1 : (ev.httpMethod == "OPTIONS") = false := by rw [hm]; rfl
  have h2 : (ev.httpMethod == "POST") = true := by rw [hm]; rfl
  have h3 : (k == "") = false := beq_eq_false_iff_ne.mpr hk2
  have h4 : (jsTrimLen (fieldValOf pv cfg.fieldName) == 0) = true := by
    rw [hfv]; rfl
  unfold handlerCore
  rw [h1, h2, hk]
  simp only [h3, h4, hs, hp, Bool.not_false, Bool.not_true, if_false, if_true,
    Bool.false_eq_true, ite_false, ite_true]

/-- C6: with the credential present and the body within the size ceiling, a
parsed body whose designated text field is absent, not a string, or
empty/whitespace-only after trimming is rejected with 400 naming the field;
an entirely empty body parses as the empty object and is rejected the same
way. -/
theorem claim_C6 :
    (∀ (cfg : EndpointConfig) (env : Env) (plat : Platform)
        (prov : ProviderOutcome) (ev : Event) (k : String) (pv : Json),
      ev.httpMethod = "POST" → env.openaiApiKey = some k → k ≠ "" →
      bodyTooLarge ev = false → plat.jsonParse (parseArg plat ev) = some pv →
      (jsonLookup (payloadOf pv) cfg.fieldName = none ∨
        (∃ j, jsonLookup (payloadOf pv) cfg.fieldName = some j ∧
          ∀ s, j ≠ .str s) ∨
        (∃ s, jsonLookup (payloadOf pv) cfg.fieldName = some (.str s) ∧
          jsTrimLen s = 0)) →
      handlerCore cfg env plat prov ev =
        ⟨jsonResponse 400
          (.obj [("error", .str ("Missing required field: " ++ cfg.fieldName)),
                 ("requestId", ridJson ev)]), false⟩) ∧
    (∀ (cfg : EndpointConfig) (env : Env) (plat : Platform)
        (prov : ProviderOutcome) (ev : Event) (k : String),
      ev.httpMethod = "POST" → env.openaiApiKey = some k → k ≠ "" →
      (ev.body = none ∨ ev.body = some "") → ev.isBase64Encoded = false →
      plat.jsonParse "\x7b\x7d" = some (.obj []) →
      handlerCore cfg env plat prov ev =
        ⟨jsonResponse 400
          (.obj [("error", .str ("Missing required field: " ++ cfg.fieldName)),
                 ("requestId", ridJson ev)]), false⟩) := by
  constructor
  · intro cfg env plat prov ev k pv hm hk hk2 hs hp hmiss
    have hfv : jsTrimLen (fieldValOf pv cfg.fieldName) = 0 := by
      rcases hmiss with h | ⟨j, hj, hns⟩ | ⟨s, hsf, hz⟩
      · unfold fieldValOf
        rw [h]
        rfl
      · unfold fieldValOf
        rw [hj]
        cases j with
        | str s => exact absurd rfl (hns s)
        | null => rfl
        | bool b => rfl
        | num n => rfl
        | arr a => rfl
        | obj o => rfl
      · unfold fieldValOf
        rw [hsf]
        exact hz
    exact handlerCore_missing_field cfg env plat prov ev k pv hm hk hk2 hs hp hfv
  · intro cfg env plat prov ev k hm hk hk2 hbody hb64 hpx
    have hs : bodyTooLarge ev = false := by
      unfold bodyTooLarge
      rcases hbody with h | h
      · rw [h]
      · rw [h]
        rfl
    have hebt : effectiveBodyText plat ev = "" := by
      unfold effectiveBodyText
      rw [hb64]
      rcases hbody with h | h <;> rw [h] <;> rfl
    have hpa : parseArg plat ev = "\x7b\x7d" := by
      unfold parseArg
      rw [hebt]
      rfl
    have hp : plat.jsonParse (parseArg plat ev) = some (.obj []) := by
      rw [hpa]
      exact hpx
    exact handlerCore_missing_field cfg env plat prov ev k (.obj []) hm hk hk2
      hs hp rfl

/-- A parse oracle returning an object that lacks both designated text
fields. -/
def platOther : Platform :=
  ⟨fun s => if s = "IN" then some (.obj [("other", .str "x")]) else none, id⟩

/-- A parse oracle that only understands the empty-object default text. -/
def platEmptyObj : Platform :=
  ⟨fun s => if s = "\x7b\x7d" then some (.obj []) else none, id⟩

/-- C6 witness: a parsed body without the `userMessage` field, and an absent
body, both rejected with the concrete 400 missing-field envelope. -/
theorem claim_C6_wit :
    handlerCore triageConfig envWithKey platOther provNone evPostIn =
      ⟨jsonResponse 400
        (.obj [("error", .str ("Missing required field: " ++ "userMessage")),
               ("requestId", ridJson evPostIn)]), false⟩ ∧
    handlerCore planConfig envWithKey platEmptyObj provNone
        ⟨"POST", [], none, false⟩ =
      ⟨jsonResponse 400
        (.obj [("error", .str ("Missing required field: " ++ "input")),
               ("requestId", ridJson ⟨"POST", [], none, false⟩)]), false⟩ := by
  constructor
  · exact claim_C6.1 triageConfig envWithKey platOther provNone evPostIn
      "sk-test" (.obj [("other", .str "x")]) rfl rfl (by decide) (by decide)
      (by decide) (Or.inl (by decide))
  · exact claim_C6.2 planConfig envWithKey platEmptyObj provNone
      ⟨"POST", [], none, false⟩ "sk-test" rfl rfl (by decide) (Or.inl rfl)
      rfl (by decide)

/-! ### C5: the 8000-character input ceiling -/

/-- An 8001-character text value. -/
def longText : String := String.mk (List.replicate 8001 'a')

theorem jsTrimLen_longText : jsTrimLen longText = 8001 :=
  jsTrimLen_replicate_a 8001

theorem jsLength_longText : jsLength longText = 8001 :=
  jsLength_replicate_a 8001

/-- A parse oracle returning the over-long text in both designated fields. -/
def platLong : Platform :=
  ⟨fun s => if s = "IN" then
      some (.obj [("userMessage", .str longText), ("input", .str longText)])
    else none, id⟩

/-- C5 counterexample: a POST request whose body parses to a non-empty
8001-character text field, sent while `OPENAI_API_KEY` is absent, is answered
with the 500 configuration error instead of the 400 length rejection the
claim requires unconditionally — the credential check runs first. -/
theorem claim_C5_cx :
    platLong.jsonParse (parseArg platLong evPostIn) =
      some (.obj [("userMessage", .str longText), ("input", .str longText)]) ∧
    jsTrimLen longText ≠ 0 ∧ MAX_INPUT_CHARS < jsLength longText ∧
    evPostIn.httpMethod = "POST" ∧
    (handlerTriage envNoKey platLong provNone evPostIn).resp.statusCode = 500 ∧
    (handlerTriage envNoKey platLong provNone evPostIn).resp.statusCode ≠ 400 ∧
    (handlerTriage envNoKey platLong provNone evPostIn).providerCalled = false := by
  refine ⟨rfl, ?_, ?_, rfl, rfl, ?_, rfl⟩
  · rw [jsTrimLen_longText]
    decide
  · rw [jsLength_longText]
    decide
  · have h : (handlerTriage envNoKey platLong provNone evPostIn).resp.statusCode
        = 500 := rfl
    rw [h]
    decide

/-- C5 (amended): with the credential present and the body within the size
ceiling, a parsed body whose designated text field is a non-empty string
longer than 8000 characters is answered with the 400 envelope naming the
8000-character ceiling, and the completion client is never invoked. -/
theorem claim_C5 (cfg : EndpointConfig) (env : Env) (plat : Platform)
    (prov : ProviderOutcome) (ev : Event) (k : String) (pv : Json) (s : String)
    (hm : ev.httpMethod = "POST") (hk : env.openaiApiKey = some k)
    (hk2 : k ≠ "") (hs : bodyTooLarge ev = false)
    (hp : plat.jsonParse (parseArg plat ev) = some pv)
    (hfield : jsonLookup (payloadOf pv) cfg.fieldName = some (.str s))
    (hne : jsTrimLen s ≠ 0) (hlong : MAX_INPUT_CHARS < jsLength s) :
    handlerCore cfg env plat prov ev =
      ⟨jsonResponse 400
        (.obj [("error", .str ("Input is too long. Please keep it under " ++
                 toString MAX_INPUT_CHARS ++ " characters.")),
               ("requestId", ridJson ev)]), false⟩ ∧
    (handlerCore cfg env plat prov ev).providerCalled = false := by
  have hfv : fieldValOf pv cfg.fieldName = s := by
    unfold fieldValOf
    rw [hfield]
  have h1 : (ev.httpMethod == "OPTIONS") = false := by rw [hm]; rfl
  have h2 : (ev.httpMethod == "POST") = true := by rw [hm]; rfl
  have h3 : (k == "") = false := beq_eq_false_iff_ne.mpr hk2
  have h4 : (jsTrimLen (fieldValOf pv cfg.fieldName) == 0) = false := by
    rw [hfv]
    exact beq_eq_false_iff_ne.mpr hne
  have h5 : decide (MAX_INPUT_CHARS < jsLength (fieldValOf pv cfg.fieldName))
      = true := by
    rw [hfv]
    exact decide_eq_true hlong
  have hmain : handlerCore cfg env plat prov ev =
      ⟨jsonResponse 400
        (.obj [("error", .str ("Input is too long. Please keep it under " ++
                 toString MAX_INPUT_CHARS ++ " characters.")),
               ("requestId", ridJson ev)]), false⟩ := by
    unfold handlerCore
    rw [h1, h2, hk]
    simp only [h3, h4, h5, hs, hp, Bool.not_false, Bool.not_true, if_false,
      if_true, Bool.false_eq_true, ite_false, ite_true]
  exact ⟨hmain, by rw [hmain]⟩

/-- C5 witness: the amended theorem applied at a concrete 8001-character
input with the credential present. -/
theorem claim_C5_wit :
    handlerCore triageConfig envWithKey platLong provNone evPostIn =
      ⟨jsonResponse 400
        (.obj [("error", .str ("Input is too long. Please keep it under " ++
                 toString MAX_INPUT_CHARS ++ " characters.")),
               ("requestId", ridJson evPostIn)]), false⟩ ∧
    (handlerCore triageConfig envWithKey platLong provNone
      evPostIn).providerCalled = false :=
  claim_C5 triageConfig envWithKey platLong provNone evPostIn "sk-test"
    (.obj [("userMessage", .str longText), ("input", .str longText)]) longText
    rfl rfl (by decide) (by decide) rfl rfl
    (by rw [jsTrimLen_longText]; decide)
    (by rw [jsLength_longText]; decide)

/-! ### C10: totality and determinism of the shape validators -/

/-- C10: on every JSON value — including all non-object inputs — both shape
validators return a verdict (success or an error message, never an
exception, which the total Lean embedding witnesses by construction); every
non-object input gets the not-an-object error, and re-validating the same
value yields the same verdict. -/
theorem claim_C10 (v : Json) :
    ((∃ fields, v = Json.obj fields) ∨
      (validateTriageShape v = some "Response is not an object." ∧
       validatePlanShape v = some "Response is not an object.")) ∧
    (validateTriageShape v = none ∨ ∃ m, validateTriageShape v = some m) ∧
    (validatePlanShape v = none ∨ ∃ m, validatePlanShape v = some m) ∧
    validateTriageShape v = validateTriageShape v ∧
    validatePlanShape v = validatePlanShape v := by
  refine ⟨?_, ?_, ?_, rfl, rfl⟩
  · cases v with
    | obj fields => exact Or.inl ⟨fields, rfl⟩
    | null => exact Or.inr ⟨rfl, rfl⟩
    | bool b => exact Or.inr ⟨rfl, rfl⟩
    | num n => exact Or.inr ⟨rfl, rfl⟩
    | str s => exact Or.inr ⟨rfl, rfl⟩
    | arr a => exact Or.inr ⟨rfl, rfl⟩
  · cases h : validateTriageShape v with
    | none => exact Or.inl rfl
    | some m => exact Or.inr ⟨m, rfl⟩
  · cases h : validatePlanShape v with
    | none => exact Or.inl rfl
    | some m => exact Or.inr ⟨m, rfl⟩

/-! ### Pattern characterizations (C2) and containment (C9) -/

/-- If `p` is a literal prefix of `l`, then `l` decomposes as `p ++ t`. -/
theorem leadsWith_append (p : List Char) :
    ∀ l, leadsWith p l = true → ∃ t, l = p ++ t := by
  induction p with
  | nil => exact fun l _ => ⟨l, rfl⟩
  | cons c cs ih =>
    intro l h
    cases l with
    | nil => nomatch h
    | cons d ds =>
      rw [leadsWith, Bool.and_eq_true] at h
      obtain ⟨h1, h2⟩ := h
      obtain ⟨t, ht⟩ := ih ds h2
      exact ⟨t, by rw [beq_iff_eq] at h1; rw [h1, ht]; rfl⟩

/-- Spec-level reading of `[A-Z][a-zA-Z]+`: the list begins with a
capitalized word, i.e. an upper-case letter followed by at least one more
letter. -/
def BeginsCapWord (r : List Char) : Prop :=
  ∃ c d t, r = c :: d :: t ∧ isUpperAZ c = true ∧ isAsciiLetter d = true

/-- Spec-level reading of the optional numbering/bullet prefix group:
optional whitespace, then either one or more digits followed by one of
`.` `)` `:` `-` and whitespace, or a dash/bullet followed by whitespace. -/
def NumberingOrBulletOk (p : List Char) : Prop :=
  ∃ ws t, p = ws ++ t ∧ (∀ c ∈ ws, isJsSpace c = true) ∧
    ((∃ ds pc sp, t = ds ++ pc :: sp ∧ ds ≠ [] ∧
        (∀ c ∈ ds, isDigitCh c = true) ∧
        (pc = '.' ∨ pc = ')' ∨ pc = ':' ∨ pc = '-') ∧
        (∀ c ∈ sp, isJsSpace c = true)) ∨
      (∃ b sp, t = b :: sp ∧ (b = '-' ∨ b = '•') ∧
        (∀ c ∈ sp, isJsSpace c = true)))

theorem capWordCore_begins (r : List Char) (h : capWordCore r = true) :
    BeginsCapWord r := by
  cases r with
  | nil => nomatch h
  | cons c rest =>
    rw [capWordCore, Bool.and_eq_true] at h
    obtain ⟨hu, ha⟩ := h
    rw [List.any_eq_true] at ha
    obtain ⟨k, hk, hcond⟩ := ha
    rw [Bool.and_eq_true, Bool.and_eq_true, Bool.and_eq_true] at hcond
    obtain ⟨⟨⟨h1, h2⟩, _⟩, _⟩ := hcond
    rw [decide_eq_true_eq] at h1
    cases rest with
    | nil =>
      rw [List.mem_range] at hk
      simp at hk
      omega
    | cons d t =>
      cases k with
      | zero => omega
      | succ k' =>
        rw [List.take_succ_cons, List.all_cons, Bool.and_eq_true] at h2
        exact ⟨c, d, t, rfl, hu, h2.1⟩

theorem numberingOrBullet_ok (p : List Char) (h : numberingOrBullet p = true) :
    NumberingOrBulletOk p := by
  rw [numberingOrBullet, List.any_eq_true] at h
  obtain ⟨i, _, hcond⟩ := h
  rw [Bool.and_eq_true] at hcond
  obtain ⟨hws, halt⟩ := hcond
  refine ⟨p.take i, p.drop i, (List.take_append_drop i p).symm,
    fun c hc => (List.all_eq_true.mp hws) c hc, ?_⟩
  rw [Bool.or_eq_true] at halt
  rcases halt with halt | halt
  · left
    rw [numberingAlt, List.any_eq_true] at halt
    obtain ⟨j, _, hj⟩ := halt
    rw [Bool.and_eq_true, Bool.and_eq_true] at hj
    obtain ⟨⟨hj1, hj2⟩, hj3⟩ := hj
    rw [decide_eq_true_eq] at hj1
    cases hdrop : (p.drop i).drop j with
    | nil => rw [hdrop] at hj3; nomatch hj3
    | cons pc sp =>
      rw [hdrop] at hj3
      rw [punctThenSpaces, Bool.and_eq_true] at hj3
      obtain ⟨hpc, hsp⟩ := hj3
      have hlt : j < (p.drop i).length := by
        rcases Nat.lt_or_ge j (p.drop i).length with hcase | hcase
        · exact hcase
        · rw [List.drop_eq_nil_of_le hcase] at hdrop
          nomatch hdrop
      refine ⟨(p.drop i).take j, pc, sp, by rw [← hdrop, List.take_append_drop],
        ?_, fun c hc => (List.all_eq_true.mp hj2) c hc, ?_,
        fun c hc => (List.all_eq_true.mp hsp) c hc⟩
      · intro hnil
        have hlen := congrArg List.length hnil
        rw [List.length_take, Nat.min_eq_left (Nat.le_of_lt hlt)] at hlen
        simp at hlen
        omega
      · rw [Bool.or_eq_true, Bool.or_eq_true, Bool.or_eq_true] at hpc
        rcases hpc with ((h | h) | h) | h <;> rw [beq_iff_eq] at h
        · exact Or.inl h
        · exact Or.inr (Or.inl h)
        · exact Or.inr (Or.inr (Or.inl h))
        · exact Or.inr (Or.inr (Or.inr h))
  · right
    cases hdrop : p.drop i with
    | nil => rw [hdrop] at halt; nomatch halt
    | cons b sp =>
      rw [hdrop] at halt
      rw [bulletAlt, Bool.and_eq_true] at halt
      obtain ⟨hb, hsp⟩ := halt
      refine ⟨b, sp, rfl, ?_, fun c hc => (List.all_eq_true.mp hsp) c hc⟩
      rw [Bool.or_eq_true] at hb
      rcases hb with h | h <;> rw [beq_iff_eq] at h
      · exact Or.inl h
      · exact Or.inr h

/-- C2: the triage regex requires every item to start, with no prefix, with
one of the enumerated action verbs; the generatePlan regex requires every
item to start, optionally after a numbering or bullet prefix, with a
capitalized word (an upper-case letter followed by at least one more
letter); and the two patterns genuinely differ, witnessed by a
numbering-prefixed item only the generatePlan regex accepts. -/
theorem claim_C2 :
    (∀ l, triageNextStepsPattern l = true →
      ∃ v ∈ actionVerbs, ∃ rest, l = v.data ++ rest) ∧
    (∀ l, planNextStepsPattern l = true →
      ∃ p r, l = p ++ r ∧ (p = [] ∨ NumberingOrBulletOk p) ∧
        BeginsCapWord r) ∧
    (planNextStepsPattern "1. Review the data".data = true ∧
      triageNextStepsPattern "1. Review the data".data = false) := by
  refine ⟨?_, ?_, by decide, by decide⟩
  · intro l h
    rw [triageNextStepsPattern, List.any_eq_true] at h
    obtain ⟨v, hv, hcond⟩ := h
    rw [Bool.and_eq_true, Bool.and_eq_true] at hcond
    obtain ⟨t, ht⟩ := leadsWith_append v.data l hcond.1.1
    exact ⟨v, hv, t, ht⟩
  · intro l h
    rw [planNextStepsPattern, Bool.or_eq_true] at h
    rcases h with h | h
    · exact ⟨[], l, rfl, Or.inl rfl, capWordCore_begins l h⟩
    · rw [List.any_eq_true] at h
      obtain ⟨i, _, hcond⟩ := h
      rw [Bool.and_eq_true] at hcond
      exact ⟨l.take i, l.drop i, (List.take_append_drop i l).symm,
        Or.inr (numberingOrBullet_ok _ hcond.1),
        capWordCore_begins _ hcond.2⟩

/-- C2 witness: the two characterizations applied at concrete accepted
items. -/
theorem claim_C2_wit :
    (∃ v ∈ actionVerbs, ∃ rest, "Define next steps".data = v.data ++ rest) ∧
    (∃ p r, "1) Review logs".data = p ++ r ∧ (p = [] ∨ NumberingOrBulletOk p) ∧
      BeginsCapWord r) :=
  ⟨claim_C2.1 "Define next steps".data (by decide),
   claim_C2.2.1 "1) Review logs".data (by decide)⟩

/-! ### C9: the triage pattern and validator refine the generatePlan ones -/

/-- An action verb has the shape required by the capitalized-word core: an
upper-case letter followed by at least one more letter. -/
def verbShape : List Char → Bool
  | c :: d :: tl => isUpperAZ c && (d :: tl).all isAsciiLetter
  | _ => false

theorem capWordCore_of_verb (c : Char) (tail rest : List Char)
    (hu : isUpperAZ c = true) (hall : tail.all isAsciiLetter = true)
    (hne : tail ≠ []) (hb : boundaryAfter rest = true)
    (hn : noLineTerm rest = true) :
    capWordCore (c :: (tail ++ rest)) = true := by
  rw [capWordCore, Bool.and_eq_true]
  refine ⟨hu, ?_⟩
  rw [List.any_eq_true]
  refine ⟨tail.length, ?_, ?_⟩
  · rw [List.mem_range, List.length_append]
    omega
  · rw [Bool.and_eq_true, Bool.and_eq_true, Bool.and_eq_true]
    have hpos : 0 < tail.length := List.length_pos.mpr hne
    refine ⟨⟨⟨decide_eq_true (by omega), ?_⟩, ?_⟩, ?_⟩
    · rw [List.take_left]
      exact hall
    · rw [List.drop_left]
      exact hb
    · rw [List.drop_left]
      exact hn

/-- Every string accepted by the triage closed-verb-list pattern is accepted
by the generatePlan capitalized-word pattern. -/
theorem triagePattern_le_planPattern (l : List Char)
    (h : triageNextStepsPattern l = true) : planNextStepsPattern l = true := by
  rw [triageNextStepsPattern, List.any_eq_true] at h
  obtain ⟨v, hv, hcond⟩ := h
  rw [Bool.and_eq_true, Bool.and_eq_true] at hcond
  obtain ⟨⟨hlw, hb⟩, hn⟩ := hcond
  obtain ⟨t, ht⟩ := leadsWith_append v.data l hlw
  have hdrop : l.drop v.length = t := by
    rw [ht]
    show (v.data ++ t).drop v.data.length = t
    exact List.drop_left v.data t
  rw [hdrop] at hb hn
  have hshape : ∀ w ∈ actionVerbs, verbShape w.data = true := by decide
  have hw := hshape v hv
  rcases hvd : v.data with _ | ⟨c, _ | ⟨d, tl⟩⟩
  · rw [hvd] at hw
    nomatch hw
  · rw [hvd] at hw
    nomatch hw
  · rw [hvd] at hw
    rw [verbShape, Bool.and_eq_true] at hw
    rw [ht, hvd]
    rw [planNextStepsPattern, Bool.or_eq_true]
    left
    show capWordCore (c :: ((d :: tl) ++ t)) = true
    exact capWordCore_of_verb c (d :: tl) t hw.1 hw.2 (by simp) hb hn

/-- The item loop only grows more permissive when the pattern does. -/
theorem checkItems_mono (f : String) (ml : Nat) (p q : List Char → Bool)
    (hpq : ∀ s, p s = true → q s = true) :
    ∀ items, checkItems f ml (some p) items = none →
      checkItems f ml (some q) items = none := by
  intro items
  induction items with
  | nil => intro _; rfl
  | cons it rest ih =>
    intro h
    cases it with
    | str s =>
      rw [checkItems] at h ⊢
      by_cases htrim : jsTrimLen s < ml
      · rw [if_pos htrim] at h
        nomatch h
      · rw [if_neg htrim] at h ⊢
        by_cases hp : (!(p s.data)) = true
        · rw [if_pos hp] at h
          nomatch h
        · have hp2 : p s.data = true := by
            rcases hb : p s.data with _ | _
            · rw [hb] at hp
              exact absurd rfl hp
            · rfl
          have hq : (!(q s.data)) = true → False := by
            intro hqc
            rw [hpq s.data hp2] at hqc
            nomatch hqc
          rw [if_neg hp] at h
          rw [if_neg hq]
          exact ih h
    | null => nomatch h
    | bool b => nomatch h
    | num n => nomatch h
    | arr a => nomatch h
    | obj o => nomatch h

/-- `checkArray` is monotone in the pattern. -/
theorem checkArray_mono (v : Json) (f : String) (mn mx ml : Nat)
    (p q : List Char → Bool) (hpq : ∀ s, p s = true → q s = true)
    (h : checkArray v f mn mx ml (some p) = none) :
    checkArray v f mn mx ml (some q) = none := by
  rw [checkArray] at h ⊢
  rcases hl : jsonLookup v f with _ | j
  · rw [hl] at h
    nomatch h
  · rw [hl] at h
    cases j with
    | arr items =>
      replace h : (if (decide (items.length < mn) ||
            decide (mx < items.length)) = true then
          some (f ++ " must have " ++ toString mn ++ "-" ++ toString mx ++
            " items.")
          else checkItems f ml (some p) items) = none := h
      show (if (decide (items.length < mn) ||
            decide (mx < items.length)) = true then
          some (f ++ " must have " ++ toString mn ++ "-" ++ toString mx ++
            " items.")
          else checkItems f ml (some q) items) = none
      by_cases hlen : (decide (items.length < mn) ||
          decide (mx < items.length)) = true
      · rw [if_pos hlen] at h
        nomatch h
      · rw [if_neg hlen] at h
        rw [if_neg hlen]
        exact checkItems_mono f ml p q hpq items h
    | null => nomatch h
    | bool b => nomatch h
    | num n => nomatch h
    | str s => nomatch h
    | obj o => nomatch h

theorem jsOr_none_parts (a b : Option String) (h : jsOr a b = none) :
    (a = none ∨ a = some "") ∧ b = none := by
  unfold jsOr at h
  cases a with
  | none => exact ⟨Or.inl rfl, h⟩
  | some s =>
    replace h : (if (s == "") = true then b else some s) = none := h
    by_cases hs : (s == "") = true
    · rw [if_pos hs] at h
      exact ⟨Or.inr (by rw [beq_iff_eq.mp hs]), h⟩
    · rw [if_neg hs] at h
      nomatch h

theorem jsOr_none_build (a b : Option String) (ha : a = none ∨ a = some "")
    (hb : b = none) : jsOr a b = none := by
  unfold jsOr
  rcases ha with ha | ha <;> rw [ha]
  · exact hb
  · exact hb

/-- The shared validator is monotone in the `next_steps` pattern. -/
theorem validateShape_mono (p q : List Char → Bool)
    (hpq : ∀ s, p s = true → q s = true) (v : Json)
    (h : validateShape p v = none) : validateShape q v = none := by
  cases v with
  | obj fields =>
    rw [validateShape] at h ⊢
    rcases h1 : firstUnexpected (fields.map Prod.fst) with _ | k
    · rw [h1] at h
      rcases h2 : firstMissing (fields.map Prod.fst) with _ | k
      · rw [h2] at h
        rcases h3 : jsonLookup (.obj fields) "problem_statement" with _ | j
        · rw [h3] at h
          nomatch h
        · rw [h3] at h
          cases j with
          | str s =>
            replace h : (if jsTrimLen s < 10 then
                some "problem_statement must be a string (minLength 10)."
                else
                  jsOr (checkArray (.obj fields) "clarifying_questions" 3 5 5 none)
                    (jsOr (checkArray (.obj fields) "proposed_approach" 4 7 5 none)
                      (jsOr (checkArray (.obj fields) "recommended_tools" 1 10 2 none)
                        (jsOr (checkArray (.obj fields) "risks_and_privacy" 1 10 5 none)
                          (checkArray (.obj fields) "next_steps" 4 7 3
                            (some p)))))) = none := h
            show (if jsTrimLen s < 10 then
                some "problem_statement must be a string (minLength 10)."
                else
                  jsOr (checkArray (.obj fields) "clarifying_questions" 3 5 5 none)
                    (jsOr (checkArray (.obj fields) "proposed_approach" 4 7 5 none)
                      (jsOr (checkArray (.obj fields) "recommended_tools" 1 10 2 none)
                        (jsOr (checkArray (.obj fields) "risks_and_privacy" 1 10 5 none)
                          (checkArray (.obj fields) "next_steps" 4 7 3
                            (some q)))))) = none
            by_cases htrim : jsTrimLen s < 10
            · rw [if_pos htrim] at h
              nomatch h
            · rw [if_neg htrim] at h
              rw [if_neg htrim]
              obtain ⟨ha1, h⟩ := jsOr_none_parts _ _ h
              obtain ⟨ha2, h⟩ := jsOr_none_parts _ _ h
              obtain ⟨ha3, h⟩ := jsOr_none_parts _ _ h
              obtain ⟨ha4, h5⟩ := jsOr_none_parts _ _ h
              exact jsOr_none_build _ _ ha1 (jsOr_none_build _ _ ha2
                (jsOr_none_build _ _ ha3 (jsOr_none_build _ _ ha4
                  (checkArray_mono _ _ _ _ _ p q hpq h5))))
          | null => nomatch h
          | bool b => nomatch h
          | num n => nomatch h
          | arr a => nomatch h
          | obj o => nomatch h
      · rw [h2] at h
        nomatch h
    · rw [h1] at h
      nomatch h
  | null => exact Option.noConfusion h
  | bool b => exact Option.noConfusion h
  | num n => exact Option.noConfusion h
  | str s => exact Option.noConfusion h
  | arr a => exact Option.noConfusion h

/-- C9: every `next_steps` item accepted by the triage closed-verb-list
pattern is accepted by the generatePlan capitalized-word pattern, and hence
every object accepted by `validateTriageShape` is accepted by
`validatePlanShape`. -/
theorem claim_C9 :
    (∀ l, triageNextStepsPattern l = true → planNextStepsPattern l = true) ∧
    (∀ v, validateTriageShape v = none → validatePlanShape v = none) := by
  refine ⟨triagePattern_le_planPattern, ?_⟩
  intro v h
  exact validateShape_mono triageNextStepsPattern planNextStepsPattern
    triagePattern_le_planPattern v h

/-- A six-field object satisfying all triage constraints. -/
def goodObj : Json := .obj
  [("problem_statement", .str "Our team loses track of inbound tickets."),
   ("clarifying_questions", .arr [.str "What tools do you use today?",
      .str "How many tickets arrive daily?", .str "Who owns the queue?"]),
   ("proposed_approach", .arr [.str "Map the current intake flow.",
      .str "Pick a single source of truth.", .str "Automate routing rules.",
      .str "Review outcomes weekly."]),
   ("recommended_tools", .arr [.str "Jira"]),
   ("risks_and_privacy", .arr [.str "Ticket data may hold PII."]),
   ("next_steps", .arr [.str "Gather current ticket metrics",
      .str "Define routing criteria", .str "Pilot the new queue",
      .str "Review results after two weeks"])]

/-- C9 witness: the containment applied at a concrete item and at a concrete
triage-valid object. -/
theorem claim_C9_wit :
    planNextStepsPattern "Define scope".data = true ∧
    validatePlanShape goodObj = none :=
  ⟨claim_C9.1 "Define scope".data (by decide),
   claim_C9.2 goodObj (by decide)⟩

/-! ### C1: the validators accept exactly the spec-described objects -/

/-- Spec-side item constraint: the item is a string whose trimmed length
meets the field minimum and (for `next_steps`) matches the endpoint's
pattern. -/
def ItemOk (ml : Nat) (pat : Option (List Char → Bool)) (it : Json) : Prop :=
  match it, pat with
  | .str s, some p => ml ≤ jsTrimLen s ∧ p s.data = true
  | .str s, none => ml ≤ jsTrimLen s
  | _, _ => False

/-- Spec-side array-field constraint: the field holds an array whose length
lies in the inclusive cardinality range and all of whose items satisfy
`ItemOk`. -/
def ArrFieldOk (v : Json) (f : String) (mn mx ml : Nat)
    (pat : Option (List Char → Bool)) : Prop :=
  ∃ items, jsonLookup v f = some (.arr items) ∧ mn ≤ items.length ∧
    items.length ≤ mx ∧ ∀ it ∈ items, ItemOk ml pat it

/-- The spec's description of a valid result object: a non-array object with
exactly the six allowed keys, `problem_statement` a string of trimmed length
at least 10, and the five array fields within their cardinality, length and
pattern constraints. -/
def ShapeOk (pat : List Char → Bool) (v : Json) : Prop :=
  ∃ fields, v = Json.obj fields ∧
    (∀ k ∈ fields.map Prod.fst, k ∈ allowedKeys) ∧
    (∀ a ∈ allowedKeys, a ∈ fields.map Prod.fst) ∧
    (∃ s, jsonLookup v "problem_statement" = some (Json.str s) ∧
      10 ≤ jsTrimLen s) ∧
    ArrFieldOk v "clarifying_questions" 3 5 5 none ∧
    ArrFieldOk v "proposed_approach" 4 7 5 none ∧
    ArrFieldOk v "recommended_tools" 1 10 2 none ∧
    ArrFieldOk v "risks_and_privacy" 1 10 5 none ∧
    ArrFieldOk v "next_steps" 4 7 3 (some pat)

theorem str_append_ne_empty (a b : String) (hb : b ≠ "") : a ++ b ≠ "" := by
  intro hcontra
  apply hb
  cases a with | mk as =>
  cases b with | mk bs =>
  have h2 : as ++ bs = ([] : List Char) := congrArg String.data hcontra
  have h3 : bs = [] := by
    cases as with
    | nil => exact h2
    | cons c cs => exact absurd h2 (by simp)
  show String.mk bs = ""
  rw [h3]

theorem checkItems_ne_some_empty (f : String) (ml : Nat)
    (pat : Option (List Char → Bool)) :
    ∀ items s, checkItems f ml pat items = some s → s ≠ "" := by
  intro items
  induction items with
  | nil => intro s h; nomatch h
  | cons it rest ih =>
    intro s h
    cases it with
    | str t =>
      cases pat with
      | some p =>
        replace h : (if jsTrimLen t < ml then
            some (f ++ " items must be strings (minLength " ++ toString ml ++ ").")
            else if (!(p t.data)) = true then
              some (f ++ " items must match required pattern.")
            else checkItems f ml (some p) rest) = some s := h
        by_cases htrim : jsTrimLen t < ml
        · rw [if_pos htrim] at h
          injection h with h
          rw [← h]
          exact str_append_ne_empty _ _ (by decide)
        · rw [if_neg htrim] at h
          by_cases hp : (!(p t.data)) = true
          · rw [if_pos hp] at h
            injection h with h
            rw [← h]
            exact str_append_ne_empty _ _ (by decide)
          · rw [if_neg hp] at h
            exact ih s h
      | none =>
        replace h : (if jsTrimLen t < ml then
            some (f ++ " items must be strings (minLength " ++ toString ml ++ ").")
            else checkItems f ml none rest) = some s := h
        by_cases htrim : jsTrimLen t < ml
        · rw [if_pos htrim] at h
          injection h with h
          rw [← h]
          exact str_append_ne_empty _ _ (by decide)
        · rw [if_neg htrim] at h
          exact ih s h
    | null =>
      replace h : some (f ++ " items must be strings (minLength " ++
        toString ml ++ ").") = some s := h
      injection h with h
      rw [← h]
      exact str_append_ne_empty _ _ (by decide)
    | bool b =>
      replace h : some (f ++ " items must be strings (minLength " ++
        toString ml ++ ").") = some s := h
      injection h with h
      rw [← h]
      exact str_append_ne_empty _ _ (by decide)
    | num n =>
      replace h : some (f ++ " items must be strings (minLength " ++
        toString ml ++ ").") = some s := h
      injection h with h
      rw [← h]
      exact str_append_ne_empty _ _ (by decide)
    | arr a =>
      replace h : some (f ++ " items must be strings (minLength " ++
        toString ml ++ ").") = some s := h
      injection h with h
      rw [← h]
      exact str_append_ne_empty _ _ (by decide)
    | obj o =>
      replace h : some (f ++ " items must be strings (minLength " ++
        toString ml ++ ").") = some s := h
      injection h with h
      rw [← h]
      exact str_append_ne_empty _ _ (by decide)

theorem checkArray_ne_some_empty (v : Json) (f : String) (mn mx ml : Nat)
    (pat : Option (List Char → Bool)) :
    ∀ s, checkArray v f mn mx ml pat = some s → s ≠ "" := by
  intro s h
  rw [checkArray] at h
  rcases hl : jsonLookup v f with _ | j
  · rw [hl] at h
    injection h with h
    rw [← h]
    exact str_append_ne_empty _ _ (by decide)
  · rw [hl] at h
    cases j with
    | arr items =>
      replace h : (if (decide (items.length < mn) ||
            decide (mx < items.length)) = true then
          some (f ++ " must have " ++ toString mn ++ "-" ++ toString mx ++
            " items.")
          else checkItems f ml pat items) = some s := h
      by_cases hlen : (decide (items.length < mn) ||
          decide (mx < items.length)) = true
      · rw [if_pos hlen] at h
        injection h with h
        rw [← h]
        exact str_append_ne_empty _ _ (by decide)
      · rw [if_neg hlen] at h
        exact checkItems_ne_some_empty f ml pat items s h
    | null =>
      replace h : some (f ++ " must be an array.") = some s := h
      injection h with h
      rw [← h]
      exact str_append_ne_empty _ _ (by decide)
    | bool b =>
      replace h : some (f ++ " must be an array.") = some s := h
      injection h with h
      rw [← h]
      exact str_append_ne_empty _ _ (by decide)
    | num n =>
      replace h : some (f ++ " must be an array.") = some s := h
      injection h with h
      rw [← h]
      exact str_append_ne_empty _ _ (by decide)
    | str t =>
      replace h : some (f ++ " must be an array.") = some s := h
      injection h with h
      rw [← h]
      exact str_append_ne_empty _ _ (by decide)
    | obj o =>
      replace h : some (f ++ " must be an array.") = some s := h
      injection h with h
      rw [← h]
      exact str_append_ne_empty _ _ (by decide)

theorem checkArray_ne_some_empty' (v : Json) (f : String) (mn mx ml : Nat)
    (pat : Option (List Char → Bool)) :
    ¬ checkArray v f mn mx ml pat = some "" :=
  fun h => checkArray_ne_some_empty v f mn mx ml pat "" h rfl

/-- One step of the item loop: success on `it :: rest` is success of the item
and of the rest. -/
theorem checkItems_cons_none (f : String) (ml : Nat)
    (pat : Option (List Char → Bool)) (it : Json) (rest : List Json) :
    checkItems f ml pat (it :: rest) = none ↔
      ItemOk ml pat it ∧ checkItems f ml pat rest = none := by
  cases it with
  | str t =>
    cases pat with
    | some p =>
      show (if jsTrimLen t < ml then
          some (f ++ " items must be strings (minLength " ++ toString ml ++ ").")
          else if (!(p t.data)) = true then
            some (f ++ " items must match required pattern.")
          else checkItems f ml (some p) rest) = none ↔
        (ml ≤ jsTrimLen t ∧ p t.data = true) ∧
          checkItems f ml (some p) rest = none
      by_cases htrim : jsTrimLen t < ml
      · rw [if_pos htrim]
        constructor
        · intro h
          nomatch h
        · intro ⟨⟨hml, _⟩, _⟩
          omega
      · rw [if_neg htrim]
        by_cases hp : (!(p t.data)) = true
        · rw [if_pos hp]
          constructor
          · intro h
            nomatch h
          · intro ⟨⟨_, hpt⟩, _⟩
            rw [hpt] at hp
            nomatch hp
        · rw [if_neg hp]
          constructor
          · intro h
            refine ⟨⟨by omega, ?_⟩, h⟩
            rcases hb : p t.data with _ | _
            · exfalso
              apply hp
              rw [hb]
              rfl
            · rfl
          · intro ⟨_, h⟩
            exact h
    | none =>
      show (if jsTrimLen t < ml then
          some (f ++ " items must be strings (minLength " ++ toString ml ++ ").")
          else checkItems f ml none rest) = none ↔
        (ml ≤ jsTrimLen t) ∧ checkItems f ml none rest = none
      by_cases htrim : jsTrimLen t < ml
      · rw [if_pos htrim]
        constructor
        · intro h
          nomatch h
        · intro ⟨hml, _⟩
          omega
      · rw [if_neg htrim]
        constructor
        · intro h
          exact ⟨by omega, h⟩
        · intro ⟨_, h⟩
          exact h
  | null =>
    cases pat with
    | some p =>
      constructor
      · intro h
        exact Option.noConfusion h
      · intro ⟨hf, _⟩
        exact hf.elim
    | none =>
      constructor
      · intro h
        exact Option.noConfusion h
      · intro ⟨hf, _⟩
        exact hf.elim
  | bool b =>
    cases pat with
    | some p =>
      constructor
      · intro h
        exact Option.noConfusion h
      · intro ⟨hf, _⟩
        exact hf.elim
    | none =>
      constructor
      · intro h
        exact Option.noConfusion h
      · intro ⟨hf, _⟩
        exact hf.elim
  | num n =>
    cases pat with
    | some p =>
      constructor
      · intro h
        exact Option.noConfusion h
      · intro ⟨hf, _⟩
        exact hf.elim
    | none =>
      constructor
      · intro h
        exact Option.noConfusion h
      · intro ⟨hf, _⟩
        exact hf.elim
  | arr a =>
    cases pat with
    | some p =>
      constructor
      · intro h
        exact Option.noConfusion h
      · intro ⟨hf, _⟩
        exact hf.elim
    | none =>
      constructor
      · intro h
        exact Option.noConfusion h
      · intro ⟨hf, _⟩
        exact hf.elim
  | obj o =>
    cases pat with
    | some p =>
      constructor
      · intro h
        exact Option.noConfusion h
      · intro ⟨hf, _⟩
        exact hf.elim
    | none =>
      constructor
      · intro h
        exact Option.noConfusion h
      · intro ⟨hf, _⟩
        exact hf.elim

/-- The item loop succeeds exactly when every item satisfies the spec's
per-item constraint. -/
theorem checkItems_none_iff (f : String) (ml : Nat)
    (pat : Option (List Char → Bool)) :
    ∀ items, checkItems f ml pat items = none ↔
      ∀ it ∈ items, ItemOk ml pat it := by
  intro items
  induction items with
  | nil =>
    constructor
    · intro _ it hit
      exact absurd hit (List.not_mem_nil it)
    · intro _
      rfl
  | cons it rest ih =>
    rw [checkItems_cons_none]
    constructor
    · intro ⟨hh, ht⟩ it' hit'
      rcases List.mem_cons.mp hit' with rfl | hm
      · exact hh
      · exact ih.mp ht it' hm
    · intro hall
      exact ⟨hall it (List.mem_cons_self it rest),
        ih.mpr (fun x hx => hall x (List.mem_cons_of_mem it hx))⟩

/-- `checkArray` succeeds exactly when the spec's array-field constraint
holds. -/
theorem checkArray_none_iff (v : Json) (f : String) (mn mx ml : Nat)
    (pat : Option (List Char → Bool)) :
    checkArray v f mn mx ml pat = none ↔ ArrFieldOk v f mn mx ml pat := by
  rw [checkArray]
  rcases hl : jsonLookup v f with _ | j
  · constructor
    · intro h
      exact Option.noConfusion h
    · intro ⟨items, hit, _⟩
      rw [hl] at hit
      nomatch hit
  · cases j with
    | arr items =>
      show (if (decide (items.length < mn) ||
            decide (mx < items.length)) = true then
          some (f ++ " must have " ++ toString mn ++ "-" ++ toString mx ++
            " items.")
          else checkItems f ml pat items) = none ↔ ArrFieldOk v f mn mx ml pat
      by_cases hlen : (decide (items.length < mn) ||
          decide (mx < items.length)) = true
      · rw [if_pos hlen]
        constructor
        · intro h
          nomatch h
        · intro ⟨items', hit, hmn, hmx, _⟩
          rw [hl] at hit
          injection hit with hit
          injection hit with hit
          subst hit
          rw [Bool.or_eq_true] at hlen
          rcases hlen with hc | hc <;> rw [decide_eq_true_eq] at hc <;> omega
      · rw [if_neg hlen]
        rw [checkItems_none_iff]
        have hmn : mn ≤ items.length := by
          by_contra hc
          exact hlen (by rw [Bool.or_eq_true]; left; exact decide_eq_true (by omega))
        have hmx : items.length ≤ mx := by
          by_contra hc
          exact hlen (by rw [Bool.or_eq_true]; right; exact decide_eq_true (by omega))
        constructor
        · intro hall
          exact ⟨items, hl, hmn, hmx, hall⟩
        · intro ⟨items', hit, _, _, hall⟩
          rw [hl] at hit
          injection hit with hit
          injection hit with hit
          subst hit
          exact hall
    | null =>
      constructor
      · intro h
        exact Option.noConfusion h
      · intro ⟨items, hit, _⟩
        rw [hl] at hit
        injection hit with hit
        exact Json.noConfusion hit
    | bool b =>
      constructor
      · intro h
        exact Option.noConfusion h
      · intro ⟨items, hit, _⟩
        rw [hl] at hit
        injection hit with hit
        exact Json.noConfusion hit
    | num n =>
      constructor
      · intro h
        exact Option.noConfusion h
      · intro ⟨items, hit, _⟩
        rw [hl] at hit
        injection hit with hit
        exact Json.noConfusion hit
    | str t =>
      constructor
      · intro h
        exact Option.noConfusion h
      · intro ⟨items, hit, _⟩
        rw [hl] at hit
        injection hit with hit
        exact Json.noConfusion hit
    | obj o =>
      constructor
      · intro h
        exact Option.noConfusion h
      · intro ⟨items, hit, _⟩
        rw [hl] at hit
        injection hit with hit
        exact Json.noConfusion hit

/-- The unexpected-property loop succeeds exactly when every key of the
object is whitelisted. -/
theorem firstUnexpected_none_iff (keys : List String) :
    firstUnexpected keys = none ↔ ∀ k ∈ keys, k ∈ allowedKeys := by
  unfold firstUnexpected
  rw [List.find?_eq_none]
  constructor
  · intro h k hk
    have h2 := h k hk
    rcases hc : allowedKeys.contains k with _ | _
    · exfalso
      apply h2
      rw [hc]
      rfl
    · exact List.mem_of_elem_eq_true hc
  · intro h k hk hc
    have h2 : allowedKeys.contains k = true := List.elem_eq_true_of_mem (h k hk)
    rw [h2] at hc
    nomatch hc

/-- The missing-property loop succeeds exactly when every whitelisted key is
present. -/
theorem firstMissing_none_iff (keys : List String) :
    firstMissing keys = none ↔ ∀ a ∈ allowedKeys, a ∈ keys := by
  unfold firstMissing
  rw [List.find?_eq_none]
  constructor
  · intro h a ha
    have h2 := h a ha
    rcases hc : keys.contains a with _ | _
    · exfalso
      apply h2
      rw [hc]
      rfl
    · exact List.mem_of_elem_eq_true hc
  · intro h a ha hc
    have h2 : keys.contains a = true := List.elem_eq_true_of_mem (h a ha)
    rw [h2] at hc
    nomatch hc

theorem jsOr_none_iff (a b : Option String) (ha : ¬ a = some "") :
    jsOr a b = none ↔ a = none ∧ b = none := by
  constructor
  · intro h
    obtain ⟨h1, h2⟩ := jsOr_none_parts a b h
    rcases h1 with h1 | h1
    · exact ⟨h1, h2⟩
    · exact absurd h1 ha
  · intro ⟨h1, h2⟩
    exact jsOr_none_build a b (Or.inl h1) h2

/-- The central characterization: the shared validator succeeds exactly on
the objects the spec describes. -/
theorem validateShape_none_iff (pat : List Char → Bool) (v : Json) :
    validateShape pat v = none ↔ ShapeOk pat v := by
  cases v with
  | obj fields =>
    rw [validateShape]
    rcases h1 : firstUnexpected (fields.map Prod.fst) with _ | k
    · rcases h2 : firstMissing (fields.map Prod.fst) with _ | k
      · rcases h3 : jsonLookup (.obj fields) "problem_statement" with _ | j
        · constructor
          · intro h
            exact Option.noConfusion h
          · intro ⟨fields', heq, _, _, ⟨s, hps, _⟩, _⟩
            rw [h3] at hps
            nomatch hps
        · cases j with
          | str s =>
            show (if jsTrimLen s < 10 then
                some "problem_statement must be a string (minLength 10)."
                else
                  jsOr (checkArray (.obj fields) "clarifying_questions" 3 5 5 none)
                    (jsOr (checkArray (.obj fields) "proposed_approach" 4 7 5 none)
                      (jsOr (checkArray (.obj fields) "recommended_tools" 1 10 2 none)
                        (jsOr (checkArray (.obj fields) "risks_and_privacy" 1 10 5 none)
                          (checkArray (.obj fields) "next_steps" 4 7 3
                            (some pat)))))) = none ↔
              ShapeOk pat (.obj fields)
            by_cases htrim : jsTrimLen s < 10
            · rw [if_pos htrim]
              constructor
              · intro h
                nomatch h
              · intro ⟨fields', heq, _, _, ⟨s', hps, hlen⟩, _⟩
                rw [h3] at hps
                injection hps with hps
                injection hps with hps
                subst hps
                omega
            · rw [if_neg htrim]
              rw [jsOr_none_iff _ _ (checkArray_ne_some_empty' _ _ _ _ _ _),
                jsOr_none_iff _ _ (checkArray_ne_some_empty' _ _ _ _ _ _),
                jsOr_none_iff _ _ (checkArray_ne_some_empty' _ _ _ _ _ _),
                jsOr_none_iff _ _ (checkArray_ne_some_empty' _ _ _ _ _ _)]
              simp only [checkArray_none_iff]
              constructor
              · intro ⟨hc1, hc2, hc3, hc4, hc5⟩
                exact ⟨fields, rfl, (firstUnexpected_none_iff _).mp h1,
                  (firstMissing_none_iff _).mp h2, ⟨s, h3, by omega⟩,
                  hc1, hc2, hc3, hc4, hc5⟩
              · intro ⟨fields', heq, _, _, _, hc1, hc2, hc3, hc4, hc5⟩
                exact ⟨hc1, hc2, hc3, hc4, hc5⟩
          | null =>
            constructor
            · intro h
              exact Option.noConfusion h
            · intro ⟨fields', heq, _, _, ⟨s', hps, _⟩, _⟩
              rw [h3] at hps
              injection hps with hps
              exact Json.noConfusion hps
          | bool b =>
            constructor
            · intro h
              exact Option.noConfusion h
            · intro ⟨fields', heq, _, _, ⟨s', hps, _⟩, _⟩
              rw [h3] at hps
              injection hps with hps
              exact Json.noConfusion hps
          | num n =>
            constructor
            · intro h
              exact Option.noConfusion h
            · intro ⟨fields', heq, _, _, ⟨s', hps, _⟩, _⟩
              rw [h3] at hps
              injection hps with hps
              exact Json.noConfusion hps
          | arr a =>
            constructor
            · intro h
              exact Option.noConfusion h
            · intro ⟨fields', heq, _, _, ⟨s', hps, _⟩, _⟩
              rw [h3] at hps
              injection hps with hps
              exact Json.noConfusion hps
          | obj o =>
            constructor
            · intro h
              exact Option.noConfusion h
            · intro ⟨fields', heq, _, _, ⟨s', hps, _⟩, _⟩
              rw [h3] at hps
              injection hps with hps
              exact Json.noConfusion hps
      · constructor
        · intro h
          exact Option.noConfusion h
        · intro ⟨fields', heq, _, hsup, _⟩
          injection heq with heq
          subst heq
          have hm := (firstMissing_none_iff (fields.map Prod.fst)).mpr hsup
          rw [h2] at hm
          nomatch hm
    · constructor
      · intro h
        exact Option.noConfusion h
      · intro ⟨fields', heq, hsub, _⟩
        injection heq with heq
        subst heq
        have hu := (firstUnexpected_none_iff (fields.map Prod.fst)).mpr hsub
        rw [h1] at hu
        nomatch hu
  | null =>
    constructor
    · intro h
      exact Option.noConfusion h
    · intro ⟨fields, heq, _⟩
      exact Json.noConfusion heq
  | bool b =>
    constructor
    · intro h
      exact Option.noConfusion h
    · intro ⟨fields, heq, _⟩
      exact Json.noConfusion heq
  | num n =>
    constructor
    · intro h
      exact Option.noConfusion h
    · intro ⟨fields, heq, _⟩
      exact Json.noConfusion heq
  | str s =>
    constructor
    · intro h
      exact Option.noConfusion h
    · intro ⟨fields, heq, _⟩
      exact Json.noConfusion heq
  | arr a =>
    constructor
    · intro h
      exact Option.noConfusion h
    · intro ⟨fields, heq, _⟩
      exact Json.noConfusion heq

/-- C1: each endpoint's validator accepts exactly the objects satisfying the
spec's constraints (with its own `next_steps` pattern), and any 200 response
the handler produces carries, verbatim as its body, a model value that the
validator accepted. -/
theorem claim_C1 :
    (∀ v, validateTriageShape v = none ↔ ShapeOk triageNextStepsPattern v) ∧
    (∀ v, validatePlanShape v = none ↔ ShapeOk planNextStepsPattern v) ∧
    (∀ (cfg : EndpointConfig) (env : Env) (plat : Platform)
        (prov : ProviderOutcome) (ev : Event),
      (handlerCore cfg env plat prov ev).resp.statusCode = 200 →
      ∃ text v, prov = .returns (some text) ∧ plat.jsonParse text = some v ∧
        validateShape cfg.nextPat v = none ∧
        (handlerCore cfg env plat prov ev).resp = jsonResponse 200 v) := by
  refine ⟨fun v => validateShape_none_iff triageNextStepsPattern v,
    fun v => validateShape_none_iff planNextStepsPattern v, ?_⟩
  intro cfg env plat prov ev h200
  rcases handlerCore_classify cfg env plat prov ev with
    h | h | h | ⟨st, msg, dbg, called, hst, _, _, h⟩ | ⟨text, v, hp1, hp2, hp3, h⟩
  · rw [h] at h200
    exact absurd h200 (by decide)
  · rw [h] at h200
    exact absurd h200 (by decide)
  · rw [h] at h200
    exact absurd h200 (by decide)
  · rw [h] at h200
    rcases hst with rfl | rfl | rfl | rfl
    · exact absurd (show (413 : Nat) = 200 from h200) (by decide)
    · exact absurd (show (400 : Nat) = 200 from h200) (by decide)
    · exact absurd (show (429 : Nat) = 200 from h200) (by decide)
    · exact absurd (show (502 : Nat) = 200 from h200) (by decide)
  · exact ⟨text, v, hp1, hp2, hp3, by rw [h]⟩

/-- A parse oracle that parses the inbound body to a valid request object and
the model text `OUT` to the valid result object. -/
def platGood : Platform :=
  ⟨fun s => if s = "IN" then
      some (.obj [("userMessage", .str "help me now"), ("input", .str "help me now")])
    else if s = "OUT" then some goodObj else none, id⟩

def provGood : ProviderOutcome := .returns (some "OUT")

/-- C1 witness: a concrete end-to-end success, with the pass-through
conclusion obtained from the claim theorem. -/
theorem claim_C1_wit :
    (handlerCore triageConfig envWithKey platGood provGood
      evPostIn).resp.statusCode = 200 ∧
    ∃ text v, provGood = .returns (some text) ∧
      platGood.jsonParse text = some v ∧
      validateShape triageConfig.nextPat v = none ∧
      (handlerCore triageConfig envWithKey platGood provGood evPostIn).resp =
        jsonResponse 200 v :=
  ⟨by decide, claim_C1.2.2 triageConfig envWithKey platGood provGood evPostIn
    (by decide)⟩

end App
